import Mathlib

/-!
Verification development for the candiedyaml scalar resolver
(`resolver.go`).

Shallow embedding conventions:
* Go strings are modelled as `String` / `List Char`.  Every character the
  resolver inspects positionally (`val[0]`, prefixes, separators) is ASCII,
  where Go's byte indexing and Lean's character indexing coincide.
* Go's `int64`/`uint64` arithmetic is modelled on `Int`/`Nat` with explicit
  two's-complement wraparound (`wrapW 64` resp. `% 2 ^ 64`).
* Fallible Go calls are modelled with `Except`.  A Go runtime panic
  (out-of-range string index) is modelled by the distinguished error
  `RErr.crash`, which the callers propagate, exactly as an unrecovered
  panic propagates in Go.
* `float64` values are modelled by `GoFloat`: an exact rational together
  with signed infinity and NaN.  For every float literal appearing in a
  theorem below the exact rational value is representable in binary64, so
  the idealisation agrees with Go's semantics on those inputs.
-/

set_option maxRecDepth 40000

namespace Candied

/-- Result of a resolver call: either a proper Go `error` carrying the
message the source builds, or a runtime panic (`crash`). -/
inductive RErr where
  | crash
  | msg (s : String)
deriving DecidableEq

instance {ε α : Type} [DecidableEq ε] [DecidableEq α] :
    DecidableEq (Except ε α) := fun a b =>
  match a, b with
  | .ok x, .ok y =>
    if h : x = y then .isTrue (by rw [h])
    else .isFalse (fun he => h (Except.ok.inj he))
  | .error x, .error y =>
    if h : x = y then .isTrue (by rw [h])
    else .isFalse (fun he => h (Except.error.inj he))
  | .ok _, .error _ => .isFalse (fun he => Except.noConfusion he)
  | .error _, .ok _ => .isFalse (fun he => Except.noConfusion he)

/-- `strings.Replace(val, "_", "", -1)`. -/
def stripUnderscores (l : List Char) : List Char :=
  l.filter (fun c => c != '_')

/-- ASCII decimal digit test, `[0-9]` in the source's regexes and
implicitly in `strconv` parsing (48–57 are the codes of `0`–`9`). -/
def isDigit (c : Char) : Bool :=
  48 ≤ c.toNat && c.toNat ≤ 57

/-- Digit value as used by `strconv.ParseUint`/`ParseInt`: decimal digits
and letters of either case (97–122 are `a`–`z`, 65–90 are `A`–`Z`);
`99` marks an invalid character. -/
def digitVal (c : Char) : Nat :=
  if 48 ≤ c.toNat ∧ c.toNat ≤ 57 then c.toNat - 48
  else if 97 ≤ c.toNat ∧ c.toNat ≤ 122 then c.toNat - 97 + 10
  else if 65 ≤ c.toNat ∧ c.toNat ≤ 90 then c.toNat - 65 + 10
  else 99

/-- A character is a valid digit for `base`. -/
def validDigit (base : Nat) (c : Char) : Bool :=
  digitVal c < base

/-- Value of a digit string in `base` (no overflow truncation; the callers
apply the explicit range checks that `strconv` performs). -/
def digitsVal (base : Nat) (ds : List Char) : Nat :=
  ds.foldl (fun a c => a * base + digitVal c) 0

/-- `strings.Split(val, ":")` on character lists. -/
def splitCh (sep : Char) : List Char → List (List Char)
  | [] => [[]]
  | c :: r =>
    let rest := splitCh sep r
    if c = sep then [] :: rest
    else
      match rest with
      | g :: gs => (c :: g) :: gs
      | [] => [[c]]

/-- Two's-complement wraparound of an unbounded integer into a signed
`w`-bit value; `wrapW 64` is Go `int64` arithmetic, and for
`w ∈ {8,16,32,64}` `wrapW w x ≠ x` is exactly
`reflect.Value.OverflowInt`'s truncate-and-compare test, while `wrapW w`
itself is the truncation performed by `reflect.Value.SetInt`. -/
def wrapW (w : Nat) (x : Int) : Int :=
  (x + 2 ^ (w - 1)) % (2 ^ w : Nat) - 2 ^ (w - 1)

/-- `strconv.ParseUint(s, base, 64)`: nonempty all-digit string whose value
fits `uint64`; both syntax and range failures collapse to `error` because
the resolver treats every non-nil `err` identically. -/
def goParseUint64 (s : List Char) (base : Nat) : Except Unit Nat :=
  if s = [] then .error ()
  else if s.all (validDigit base) then
    let v := digitsVal base s
    if v < 2 ^ 64 then .ok v else .error ()
  else .error ()

/-- `strconv.ParseInt(s, base, 64)`: optional sign, then an unsigned body;
range-checked against `int64` (`-2^63` is representable only with a
negative sign).  As with `goParseUint64`, all failures collapse. -/
def goParseInt64 (s : List Char) (base : Nat) : Except Unit Int :=
  let neg := s.headI = '-'
  let body := if s.headI = '-' ∨ s.headI = '+' then s.tail else s
  match goParseUint64 body base with
  | .error _ => .error ()
  | .ok un =>
    if ¬neg ∧ 2 ^ 63 ≤ un then .error ()
    else if neg ∧ 2 ^ 63 < un then .error ()
    else .ok (if neg then -(un : Int) else (un : Int))

/-- Tail of `resolve_int`'s non-sexagesimal path:
`value, err := strconv.ParseInt(val, base, 64); value *= sign;
if err != nil || v.OverflowInt(value) { error }; v.SetInt(value)`. -/
def intFinish (w : Nat) (sign : Int) (body : List Char) (base : Nat) :
    Except RErr Int :=
  match goParseInt64 body base with
  | .error _ => .error (.msg ("Integer: " ++ body.asString))
  | .ok n =>
    let value := wrapW 64 (n * sign)
    if wrapW w value ≠ value then .error (.msg ("Integer: " ++ body.asString))
    else .ok (wrapW w value)

/-- The sexagesimal loop of `resolve_int`, iterating over the colon groups
most-significant-last (the source walks `digits` from the last index down).
`origin` is the string the error message quotes, `value`/`bes` the mutable
`int64` accumulators. -/
def sexIntLoop (w : Nat) (origin : List Char) :
    List (List Char) → Int → Int → Except RErr Int
  | [], value, _ => .ok value
  | g :: rest, value, bes =>
    match goParseInt64 g 10 with
    | .error _ => .error (.msg ("Integer: " ++ origin.asString))
    | .ok n0 =>
      let n := wrapW 64 (n0 * bes)
      if wrapW w n ≠ n then .error (.msg ("Integer: " ++ origin.asString))
      else sexIntLoop w origin rest (wrapW 64 (value + n)) (wrapW 64 (bes * 60))

/-- `resolve_int` from resolver.go, for a signed integer target of bit
width `w` (Go calls it with `w ∈ {8,16,32,64}`).  The `.crash` results
mark the source's `val[0]` panics on an empty remainder. -/
def resolve_int (val : String) (w : Nat) : Except RErr Int :=
  let v0 := stripUnderscores val.data
  if v0 = [] then .error .crash
  else
    let sign : Int := if v0.headI = '-' then -1 else 1
    let v := if v0.headI = '-' ∨ v0.headI = '+' then v0.tail else v0
    if v = ['0'] then .ok 0
    else if v.take 2 = ['0', 'b'] then intFinish w sign (v.drop 2) 2
    else if v.take 2 = ['0', 'x'] then intFinish w sign (v.drop 2) 16
    else if v = [] then .error .crash
    else if v.headI = '0' then intFinish w sign v.tail 8
    else if ':' ∈ v then
      match sexIntLoop w v ((splitCh ':' v).reverse) 0 1 with
      | .error e => .error e
      | .ok value => .ok (wrapW w (wrapW 64 (value * sign)))
    else intFinish w sign v 10

/-- Tail of `resolve_uint`'s non-sexagesimal path, with
`reflect.Value.OverflowUint`'s truncate-and-compare test (`% 2 ^ w`). -/
def uintFinish (w : Nat) (body : List Char) (base : Nat) :
    Except RErr Nat :=
  match goParseUint64 body base with
  | .error _ => .error (.msg ("Unsigned Integer: " ++ body.asString))
  | .ok value =>
    if value % 2 ^ w ≠ value then
      .error (.msg ("Unsigned Integer: " ++ body.asString))
    else .ok (value % 2 ^ w)

/-- The sexagesimal loop of `resolve_uint`; `uint64` arithmetic is `Nat`
arithmetic modulo `2 ^ 64`. -/
def sexUintLoop (w : Nat) (origin : List Char) :
    List (List Char) → Nat → Nat → Except RErr Nat
  | [], value, _ => .ok value
  | g :: rest, value, bes =>
    match goParseUint64 g 10 with
    | .error _ => .error (.msg ("Unsigned Integer: " ++ origin.asString))
    | .ok n0 =>
      let n := n0 * bes % 2 ^ 64
      if n % 2 ^ w ≠ n then .error (.msg ("Unsigned Integer: " ++ origin.asString))
      else sexUintLoop w origin rest ((value + n) % 2 ^ 64) (bes * 60 % 2 ^ 64)

/-- `resolve_uint` from resolver.go, for an unsigned target of width `w`. -/
def resolve_uint (val : String) (w : Nat) : Except RErr Nat :=
  let v0 := stripUnderscores val.data
  if v0 = [] then .error .crash
  else if v0.headI = '-' then
    .error (.msg ("Unsigned int with negative value: " ++ v0.asString))
  else
    let v := if v0.headI = '+' then v0.tail else v0
    if v = ['0'] then .ok 0
    else if v.take 2 = ['0', 'b'] then uintFinish w (v.drop 2) 2
    else if v.take 2 = ['0', 'x'] then uintFinish w (v.drop 2) 16
    else if v = [] then .error .crash
    else if v.headI = '0' then uintFinish w v.tail 8
    else if ':' ∈ v then
      match sexUintLoop w v ((splitCh ':' v).reverse) 0 1 with
      | .error e => .error e
      | .ok value => .ok (value % 2 ^ w)
    else uintFinish w v 10

/-- Positional value of digit-group values listed least-significant
first, starting at exponent `j`: `Σ vals[i] * 60 ^ (j + i)`.  This is the
order in which the source's sexagesimal loops walk the groups. -/
def posValN : List Nat → Nat → Nat
  | [], _ => 0
  | n :: r, j => n * 60 ^ j + posValN r (j + 1)

/-- The sexagesimal combination `Σ group[i] * 60 ^ (n - 1 - i)` over
most-significant-first group values, in Horner form. -/
def sexCombine (vals : List Nat) : Nat :=
  vals.foldl (fun a n => a * 60 + n) 0

/-- ASCII lowercasing, `strings.ToLower`.  (Unicode simple case folding
maps no non-ASCII letter into the resolver's lookup-table alphabet, so
restricting the model to ASCII does not change any lookup outcome.) -/
def lowerChar (c : Char) : Char :=
  if 'A' ≤ c ∧ c ≤ 'Z' then Char.ofNat (c.toNat + 32) else c

/-- `strings.ToLower` on strings. -/
def goToLower (s : String) : String :=
  ⟨s.data.map lowerChar⟩

/-- The `bool_values` table built in `init()`. -/
def bool_values (s : String) : Option Bool :=
  if s = "y" ∨ s = "yes" ∨ s = "true" ∨ s = "on" then some true
  else if s = "n" ∨ s = "no" ∨ s = "false" ∨ s = "off" then some false
  else none

/-- The `null_values` table built in `init()`. -/
def null_values (s : String) : Bool :=
  s = "~" || s = "null" || s = "Null" || s = "NULL" || s = ""

/-- `resolve_bool` from resolver.go. -/
def resolve_bool (val : String) : Except RErr Bool :=
  match bool_values (goToLower val) with
  | some b => .ok b
  | none => .error (.msg ("Invalid boolean: " ++ val))

/-- An exact, not necessarily reduced fraction `num / den`; every value
the resolver builds has a positive denominator.  This represents the
mathematical value of a Go `float64` computation exactly (no rounding);
every float literal used in a theorem below is exactly representable in
binary64, so on those inputs the idealisation agrees with Go. -/
structure DecQ where
  num : Int
  den : Nat
deriving DecidableEq

/-- Denotation of a fraction as a rational number. -/
def DecQ.toRat (a : DecQ) : ℚ := (a.num : ℚ) / (a.den : ℚ)

/-- Exact fraction multiplication. -/
def DecQ.mul (a b : DecQ) : DecQ := ⟨a.num * b.num, a.den * b.den⟩

/-- Exact fraction addition. -/
def DecQ.add (a b : DecQ) : DecQ :=
  ⟨a.num * (b.den : Int) + b.num * (a.den : Int), a.den * b.den⟩

/-- Go `float64` values: an exact fraction, a signed infinity, or NaN. -/
inductive GoFloat where
  | finite (q : DecQ)
  | inf (neg : Bool)
  | nan
deriving DecidableEq

/-- IEEE-style multiplication on the idealised floats (the sign/zero tests
on a `finite q` read the numerator, valid because denominators are
positive). -/
def GoFloat.mul : GoFloat → GoFloat → GoFloat
  | .nan, _ => .nan
  | _, .nan => .nan
  | .finite a, .finite b => .finite (a.mul b)
  | .inf s, .finite b => if b.num = 0 then .nan else .inf (xor s (decide (b.num < 0)))
  | .finite a, .inf s => if a.num = 0 then .nan else .inf (xor s (decide (a.num < 0)))
  | .inf s, .inf t => .inf (xor s t)

/-- IEEE-style addition on the idealised floats (finite sums are exact). -/
def GoFloat.add : GoFloat → GoFloat → GoFloat
  | .nan, _ => .nan
  | _, .nan => .nan
  | .finite a, .finite b => .finite (a.add b)
  | .inf s, .finite _ => .inf s
  | .finite _, .inf s => .inf s
  | .inf s, .inf t => if s = t then .inf s else .nan

/-- `math.MaxFloat64` (an integer) as a natural number. -/
def maxFloat64N : Nat := (2 ^ 53 - 1) * 2 ^ 971

/-- `math.MaxFloat32` (an integer) as a natural number. -/
def maxFloat32N : Nat := (2 ^ 24 - 1) * 2 ^ 104

/-- Magnitude test `|q| > m` for a fraction with positive denominator. -/
def DecQ.absGt (q : DecQ) (m : Nat) : Bool :=
  m * q.den < q.num.natAbs

/-- `reflect.Value.OverflowFloat`: always false for a 64-bit target;
for 32 bits, magnitude beyond `MaxFloat32` (infinities overflow, NaN's
comparisons are false). -/
def overflowFloat (bits : Nat) (f : GoFloat) : Bool :=
  if bits = 32 then
    match f with
    | .finite q => q.absGt maxFloat32N
    | .inf _ => true
    | .nan => false
  else false

/-- Mantissa-and-exponent part of `strconv.ParseFloat`'s decimal grammar:
`digits [. digits] [eE [sign] digits]` with at least one mantissa digit.
The value is the exact fraction (hex-float literals, which no YAML scalar
claim exercises, are omitted). -/
def parseMantExp (s : List Char) : Option DecQ :=
  let ip := s.takeWhile isDigit
  let r1 := s.dropWhile isDigit
  let fp := match r1 with
    | '.' :: r => r.takeWhile isDigit
    | _ => []
  let r2 := match r1 with
    | '.' :: r => r.dropWhile isDigit
    | _ => r1
  if ip = [] ∧ fp = [] then none
  else
    let mant : DecQ := ⟨digitsVal 10 (ip ++ fp), 10 ^ fp.length⟩
    match r2 with
    | [] => some mant
    | e :: r3 =>
      if e = 'e' ∨ e = 'E' then
        let eneg := r3.headI = '-'
        let r4 := if r3.headI = '-' ∨ r3.headI = '+' then r3.tail else r3
        let ed := r4.takeWhile isDigit
        if ed = [] ∨ r4.dropWhile isDigit ≠ [] then none
        else if eneg then some ⟨mant.num, mant.den * 10 ^ digitsVal 10 ed⟩
        else some ⟨mant.num * (10 ^ digitsVal 10 ed : Nat), mant.den⟩
      else none

/-- `strconv.ParseFloat(s, bits)`: special `inf`/`infinity` (optionally
signed) and unsigned `nan` spellings, else the decimal grammar with a
range check against the target precision.  Syntax and range failures
collapse to `error`, as the resolver treats any non-nil `err` alike. -/
def goParseFloat (s : List Char) (bits : Nat) : Except Unit GoFloat :=
  if s = [] then .error ()
  else
    let neg := s.headI = '-'
    let hasSign := s.headI = '-' ∨ s.headI = '+'
    let body := if hasSign then s.tail else s
    let lowBody := body.map lowerChar
    if lowBody = ['i', 'n', 'f'] ∨
        lowBody = ['i', 'n', 'f', 'i', 'n', 'i', 't', 'y'] then
      .ok (.inf neg)
    else if ¬hasSign ∧ lowBody = ['n', 'a', 'n'] then .ok .nan
    else
      match parseMantExp body with
      | none => .error ()
      | some q =>
        let q := if neg then DecQ.mk (-q.num) q.den else q
        let bound := if bits = 32 then maxFloat32N else maxFloat64N
        if q.absGt bound then .error ()
        else .ok (.finite q)

/-- The sexagesimal loop of `resolve_float`. -/
def sexFloatLoop (bits : Nat) (origin : List Char) :
    List (List Char) → GoFloat → GoFloat → Except RErr GoFloat
  | [], value, _ => .ok value
  | g :: rest, value, bes =>
    match goParseFloat g bits with
    | .error _ => .error (.msg ("Float: " ++ origin.asString))
    | .ok n0 =>
      let n := n0.mul bes
      if overflowFloat bits n then .error (.msg ("Float: " ++ origin.asString))
      else sexFloatLoop bits origin rest (value.add n) (bes.mul (.finite ⟨60, 1⟩))

/-- `resolve_float` from resolver.go, for a float target of `bits`
precision (Go calls it with 32 or 64). -/
def resolve_float (val : String) (bits : Nat) : Except RErr GoFloat :=
  let v0 := stripUnderscores val.data
  if v0 = [] then .error .crash
  else
    let signNeg := v0.headI = '-'
    let v := if v0.headI = '-' ∨ v0.headI = '+' then v0.tail else v0
    let lower := v.map lowerChar
    if lower = ['.', 'i', 'n', 'f'] then .ok (.inf signNeg)
    else if lower = ['.', 'n', 'a', 'n'] then .ok .nan
    else if ':' ∈ v then
      match sexFloatLoop bits v ((splitCh ':' v).reverse) (.finite ⟨0, 1⟩) (.finite ⟨1, 1⟩) with
      | .error e => .error e
      | .ok value => .ok (value.mul (.finite (if signNeg then ⟨-1, 1⟩ else ⟨1, 1⟩)))
    else
      match goParseFloat v bits with
      | .error _ => .error (.msg ("Float: " ++ v.asString))
      | .ok fv =>
        let fv := fv.mul (.finite (if signNeg then ⟨-1, 1⟩ else ⟨1, 1⟩))
        if overflowFloat bits fv then .error (.msg ("Float: " ++ v.asString))
        else .ok fv

/-- An absolute instant, as produced by Go's `time.Date`: Unix seconds
plus a nanosecond part in `[0, 1e9)`.  Two `GoTime`s are equal exactly
when they denote the same instant (`time.Time.Equal`). -/
structure GoTime where
  sec : Int
  nsec : Int
deriving DecidableEq

/-- Go's `norm(hi, lo, base)` from the `time` package: floored carry so
that the low component lands in `[0, base)`. -/
def norm2 (hi lo base : Int) : Int × Int :=
  (hi + lo.fdiv base, lo.emod base)

/-- `daysBefore[m-1]` from the `time` package: days in a non-leap year
before month `m` (1-based). -/
def daysBefore (m : Int) : Int :=
  if m = 1 then 0 else if m = 2 then 31 else if m = 3 then 59
  else if m = 4 then 90 else if m = 5 then 120 else if m = 6 then 151
  else if m = 7 then 181 else if m = 8 then 212 else if m = 9 then 243
  else if m = 10 then 273 else if m = 11 then 304 else 334

/-- `isLeap` from the `time` package (Euclidean remainders; Go uses
truncated `%`, identical on the non-negative years that arise here). -/
def isLeapYear (y : Int) : Bool :=
  y.emod 4 = 0 && (y.emod 100 != 0 || y.emod 400 = 0)

/-- Number of Gregorian leap years in `(0, y]`. -/
def leapsThrough (y : Int) : Int :=
  y.fdiv 4 - y.fdiv 100 + y.fdiv 400

/-- Days from the Unix epoch 1970-01-01 to `y`-01-01 (negative before
1970); `leapsThrough 1969 = 477`. -/
def daysFromYear (y : Int) : Int :=
  365 * (y - 1970) + leapsThrough (y - 1) - 477

/-- Days from the Unix epoch to year `y`, month `m ∈ [1,12]`, day `d`
(the day is a plain offset, exactly as `time.Date` adds `day - 1`). -/
def dateToDays (y m d : Int) : Int :=
  daysFromYear y + daysBefore m + (if isLeapYear y ∧ 3 ≤ m then 1 else 0) + (d - 1)

/-- `time.Date(year, month, day, hour, min, sec, nsec, FixedZone(off))`
from the `time` package: normalises month into the year, then cascades
nsec→sec→min→hour→day, computes the civil day count, and subtracts the
zone offset (seconds east of UTC) to reach the absolute instant. -/
def goTimeDate (year month day hour minute sec nsec off : Int) : GoTime :=
  let m0 := month - 1
  let y1 := year + m0.fdiv 12
  let m1 := m0.emod 12 + 1
  let p1 := norm2 sec nsec 1000000000
  let p2 := norm2 minute p1.1 60
  let p3 := norm2 hour p2.1 60
  let p4 := norm2 day p3.1 24
  ⟨dateToDays y1 m1 p4.1 * 86400 + p4.2 * 3600 + p3.2 * 60 + p2.2 - off,
   p1.2⟩

/-- The `ymd_regexp` of `init()`:
`^([0-9]{4})-([0-9][0-9]?)-([0-9][0-9]?)$`, returning the captured
year/month/day values.  Each digit group is matched by a maximal digit
run with a length check, which is equivalent to the (greedy, anchored)
regex because every group is followed by a non-digit or the end. -/
def ymdMatch (s : List Char) : Option (Nat × Nat × Nat) :=
  let yd := s.takeWhile isDigit
  let r0 := s.dropWhile isDigit
  if yd.length ≠ 4 then none
  else
    match r0 with
    | '-' :: r1 =>
      let md := r1.takeWhile isDigit
      let r2 := r1.dropWhile isDigit
      if md.length = 0 ∨ 2 < md.length then none
      else
        match r2 with
        | '-' :: r3 =>
          let dd := r3.takeWhile isDigit
          let r4 := r3.dropWhile isDigit
          if dd.length = 0 ∨ 2 < dd.length ∨ r4 ≠ [] then none
          else some (digitsVal 10 yd, digitsVal 10 md, digitsVal 10 dd)
        | _ => none
    | _ => none

/-- The capture groups of `timestamp_regexp` (`matches[1]`–`matches[9]`):
numeric fields, the fractional digit string (`[]` when the group is
absent or empty — the source treats both alike), and the optional signed
zone offset `(negative?, hours, optional minutes)`. -/
structure TsParts where
  year : Int
  month : Int
  day : Int
  hour : Int
  minute : Int
  sec : Int
  frac : List Char
  off : Option (Bool × Int × Option Int)
deriving DecidableEq

/-- The separator `(?:[Tt]|[ \t]+)` between date and time. -/
def parseSep : List Char → Option (List Char)
  | 'T' :: r => some r
  | 't' :: r => some r
  | c :: r =>
    if c = ' ' ∨ c = '\t' then
      some (r.dropWhile (fun d => d = ' ' || d = '\t'))
    else none
  | [] => none

/-- The time-zone tail `(?:[ \t]*(?:Z|([-+][0-9][0-9]?)(?::([0-9][0-9])?)?))?$`
applied to a nonempty remainder (an empty remainder means the optional
group is simply absent). -/
def parseZone (rd : List Char) : Option (Option (Bool × Int × Option Int)) :=
  let re := rd.dropWhile (fun d => d = ' ' || d = '\t')
  match re with
  | ['Z'] => some none
  | c :: rf =>
    if c = '+' ∨ c = '-' then
      let zh := rf.takeWhile isDigit
      let rg := rf.dropWhile isDigit
      if zh.length = 0 ∨ 2 < zh.length then none
      else
        match rg with
        | [] => some (some (c = '-', digitsVal 10 zh, none))
        | ':' :: rh =>
          if rh = [] then some (some (c = '-', digitsVal 10 zh, none))
          else
            let zm := rh.takeWhile isDigit
            if zm.length = 2 ∧ rh.dropWhile isDigit = [] then
              some (some (c = '-', digitsVal 10 zh, some (digitsVal 10 zm)))
            else none
        | _ => none
    else none
  | [] => none

/-- The `timestamp_regexp` of `init()`.  As with `ymdMatch`, maximal digit
runs with length checks are equivalent to the greedy anchored regex, since
each digit group's follower is a non-digit or the end of the string. -/
def tsMatch (s : List Char) : Option TsParts :=
  let yd := s.takeWhile isDigit
  let r0 := s.dropWhile isDigit
  if yd.length ≠ 4 then none
  else
    match r0 with
    | '-' :: r1 =>
      let md := r1.takeWhile isDigit
      let r2 := r1.dropWhile isDigit
      if md.length = 0 ∨ 2 < md.length then none
      else
        match r2 with
        | '-' :: r3 =>
          let dd := r3.takeWhile isDigit
          let r4 := r3.dropWhile isDigit
          if dd.length = 0 ∨ 2 < dd.length then none
          else if r4 = [] then
            some ⟨digitsVal 10 yd, digitsVal 10 md, digitsVal 10 dd, 0, 0, 0, [], none⟩
          else
            match parseSep r4 with
            | none => none
            | some r5 =>
              let hd := r5.takeWhile isDigit
              let r6 := r5.dropWhile isDigit
              if hd.length = 0 ∨ 2 < hd.length then none
              else
                match r6 with
                | ':' :: r7 =>
                  let mid := r7.takeWhile isDigit
                  let r8 := r7.dropWhile isDigit
                  if mid.length ≠ 2 then none
                  else
                    match r8 with
                    | ':' :: r9 =>
                      let sd := r9.takeWhile isDigit
                      let ra := r9.dropWhile isDigit
                      if sd.length ≠ 2 then none
                      else
                        let fr := match ra with
                          | '.' :: rb => rb.takeWhile isDigit
                          | _ => []
                        let rc := match ra with
                          | '.' :: rb => rb.dropWhile isDigit
                          | _ => ra
                        let base : TsParts :=
                          ⟨digitsVal 10 yd, digitsVal 10 md, digitsVal 10 dd,
                           digitsVal 10 hd, digitsVal 10 mid, digitsVal 10 sd,
                           fr, none⟩
                        if rc = [] then some base
                        else
                          match parseZone rc with
                          | none => none
                          | some z => some { base with off := z }
                    | _ => none
                | _ => none
        | _ => none
    | _ => none

/-- `strconv.Atoi` with the error ignored, as `resolve_time` uses it on
the captured fractional digits: the parsed value, clamped to `MaxInt64`
on range overflow (`Atoi` returns the clamped value together with the
ignored `ErrRange`). -/
def goAtoiClamp (ds : List Char) : Int :=
  min (digitsVal 10 ds : Int) (2 ^ 63 - 1)

/-- `resolve_time` from resolver.go: try `ymd_regexp` first (midnight UTC),
then `timestamp_regexp` with fractional digits read as a count of
milliseconds and an optional fixed zone offset. -/
def resolve_time (val : String) : Except RErr GoTime :=
  match ymdMatch val.data with
  | some (y, m, d) => .ok (goTimeDate y m d 0 0 0 0 0)
  | none =>
    match tsMatch val.data with
    | none => .error (.msg ("Unexpected timestamp: " ++ val))
    | some t =>
      let nsec : Int := if t.frac = [] then 0 else wrapW 64 (goAtoiClamp t.frac * 1000000)
      let off : Int :=
        match t.off with
        | none => 0
        | some (neg, hr, mo) =>
          let z := (hr * 60 + mo.getD 0) * 60
          if neg then -z else z
      .ok (goTimeDate t.year t.month t.day t.hour t.minute t.sec nsec off)

/-- The fields of `yaml_event_t` that the resolver reads: the scalar text,
the tag (`""` models Go's empty byte slice, tested via `len == 0`), and
the implicit-typing flag. -/
structure Event where
  value : String
  tag : String
  implicit : Bool

/-- The resolver's output values (`ResolvedValue`): `vnil` is Go `nil`
for a dynamic target, and the others carry the typed results. -/
inductive Value where
  | vnil
  | vstr (s : String)
  | vbool (b : Bool)
  | vint (i : Int)
  | vuint (n : Nat)
  | vfloat (f : GoFloat)
  | vtime (t : GoTime)
  | vbytes (bs : List Nat)
deriving DecidableEq

/-- The target kinds `resolve`'s `switch v.Kind()` distinguishes: string,
bool, signed/unsigned integers of a bit width, floats of a precision,
`interface{}` (dynamic), the `time.Time` struct, and `[]byte`. -/
inductive Kind where
  | kstr
  | kbool
  | kint (w : Nat)
  | kuint (w : Nat)
  | kfloat (bits : Nat)
  | kiface
  | ktime
  | kbytes
deriving DecidableEq

/-- `reflect.Zero(v.Type())` for each target kind; the zero `time.Time`
is 0001-01-01T00:00:00 UTC, Unix second `-62135596800`. -/
def zeroValue : Kind → Value
  | .kstr => .vstr ""
  | .kbool => .vbool false
  | .kint _ => .vint 0
  | .kuint _ => .vuint 0
  | .kfloat _ => .vfloat (.finite ⟨0, 1⟩)
  | .kiface => .vnil
  | .ktime => .vtime ⟨-62135596800, 0⟩
  | .kbytes => .vbytes []

/-- Value of a standard-base64 alphabet character. -/
def b64Val (c : Char) : Option Nat :=
  if 'A' ≤ c ∧ c ≤ 'Z' then some (c.toNat - 65)
  else if 'a' ≤ c ∧ c ≤ 'z' then some (c.toNat - 97 + 26)
  else if '0' ≤ c ∧ c ≤ '9' then some (c.toNat - 48 + 52)
  else if c = '+' then some 62
  else if c = '/' then some 63
  else none

/-- Four-character base64 quanta with `=` padding only in a final
quantum. -/
def b64Quanta : List Char → Except Unit (List Nat)
  | [] => .ok []
  | c1 :: c2 :: c3 :: c4 :: rest =>
    match b64Val c1, b64Val c2 with
    | some v1, some v2 =>
      if c3 = '=' then
        if c4 = '=' ∧ rest = [] then .ok [v1 * 4 + v2 / 16]
        else .error ()
      else
        match b64Val c3 with
        | some v3 =>
          if c4 = '=' then
            if rest = [] then .ok [v1 * 4 + v2 / 16, v2 % 16 * 16 + v3 / 4]
            else .error ()
          else
            match b64Val c4 with
            | some v4 =>
              match b64Quanta rest with
              | .ok t => .ok ((v1 * 4 + v2 / 16) :: (v2 % 16 * 16 + v3 / 4) ::
                  (v3 % 4 * 64 + v4) :: t)
              | .error e => .error e
            | none => .error ()
        | none => .error ()
    | _, _ => .error ()
  | _ => .error ()

/-- `base64.StdEncoding.Decode`: newline bytes are skipped, then the text
must be well-formed padded base64 (the source propagates the decoder's
`CorruptInputError`; the model elides the error's byte position). -/
def goBase64Decode (s : List Char) : Except Unit (List Nat) :=
  b64Quanta (s.filter (fun c => c != '\r' && c != '\n'))

/-- `resolveInterface` from resolver.go: dynamic inference driven by the
first character, mirroring the `switch` with its `fallthrough` from the
sign case into the digit case.  A `.crash` from a converter propagates,
exactly as an unrecovered Go panic would. -/
def resolveInterface (e : Event) : Except RErr Value :=
  if e.value.data = [] then .ok .vnil
  else
    let val := e.value
    if e.tag.data = [] ∧ e.implicit = false then .ok (.vstr val)
    else
      let c := val.data.headI
      if c = '-' ∨ c = '+' ∨ ('0' ≤ c ∧ c ≤ '9') then
        let sign := c = '-' ∨ c = '+'
        match resolve_int val 64 with
        | .ok i => .ok (.vint i)
        | .error .crash => .error .crash
        | .error (.msg _) =>
          match resolve_float val 64 with
          | .ok f => .ok (.vfloat f)
          | .error .crash => .error .crash
          | .error (.msg _) =>
            if ¬sign then
              match resolve_time val with
              | .ok t => .ok (.vtime t)
              | .error _ => .ok (.vstr val)
            else .ok (.vstr val)
      else if c = '~' ∨ c = 'n' ∨ c = 'N' then
        if null_values val then .ok .vnil
        else
          match resolve_bool val with
          | .ok b => .ok (.vbool b)
          | .error _ => .ok (.vstr val)
      else if c = '.' then
        match resolve_float val 64 with
        | .ok f => .ok (.vfloat f)
        | .error .crash => .error .crash
        | .error (.msg _) => .ok (.vstr val)
      else if c ∈ (['t', 'T', 'f', 'F', 'y', 'Y', 'n', 'N', 'o', 'O'] : List Char) then
        match resolve_bool val with
        | .ok b => .ok (.vbool b)
        | .error _ => .ok (.vstr val)
      else .ok (.vstr val)

/-- `resolve` from resolver.go: the null-spelling check first (zero value
for every target kind), then the `switch` on the target kind. -/
def resolve (e : Event) (k : Kind) : Except RErr Value :=
  if null_values e.value then .ok (zeroValue k)
  else
    match k with
    | .kstr => .ok (.vstr e.value)
    | .kbool => (resolve_bool e.value).map .vbool
    | .kint w => (resolve_int e.value w).map .vint
    | .kuint w => (resolve_uint e.value w).map .vuint
    | .kfloat bits => (resolve_float e.value bits).map .vfloat
    | .kiface => resolveInterface e
    | .ktime => (resolve_time e.value).map .vtime
    | .kbytes =>
      match goBase64Decode e.value.data with
      | .ok bs => .ok (.vbytes bs)
      | .error _ => .error (.msg ("illegal base64 data: " ++ e.value))


/-! Helper lemmas about two's-complement wraparound. -/

theorem two_pow_cast_le (w : Nat) :
    ((2 ^ w : Nat) : Int) ≤ 2 ^ (w - 1) + 2 ^ (w - 1) := by
  cases w with
  | zero => norm_num
  | succ n =>
    push_cast
    have h : (2 : Int) ^ (n + 1) = 2 ^ n + 2 ^ n := by rw [pow_succ]; ring
    rw [h]

theorem wrapW_range (w : Nat) (x : Int) :
    -(2 ^ (w - 1) : Int) ≤ wrapW w x ∧ wrapW w x < 2 ^ (w - 1) := by
  unfold wrapW
  have hm : (0 : Int) < ((2 ^ w : Nat) : Int) := by positivity
  have h1 := Int.emod_nonneg (x + 2 ^ (w - 1)) (ne_of_gt hm)
  have h2 := Int.emod_lt_of_pos (x + 2 ^ (w - 1)) hm
  have h3 := two_pow_cast_le w
  omega

theorem wrapW_eq_self {w : Nat} {x : Int} (hw : 1 ≤ w)
    (h1 : -(2 ^ (w - 1) : Int) ≤ x) (h2 : x < 2 ^ (w - 1)) :
    wrapW w x = x := by
  unfold wrapW
  have hc : ((2 ^ w : Nat) : Int) = 2 ^ (w - 1) + 2 ^ (w - 1) := by
    cases w with
    | zero => omega
    | succ n => push_cast; rw [pow_succ]; ring
  rw [Int.emod_eq_of_lt (by omega) (by omega)]
  omega

theorem wrapW_emod (w : Nat) (x : Int) :
    wrapW w x % ((2 ^ w : Nat) : Int) = x % ((2 ^ w : Nat) : Int) := by
  unfold wrapW
  have h1 : (x + 2 ^ (w - 1)) % ((2 ^ w : Nat) : Int) % ((2 ^ w : Nat) : Int)
      = (x + 2 ^ (w - 1)) % ((2 ^ w : Nat) : Int) :=
    Int.emod_emod_of_dvd _ dvd_rfl
  have h2 : ((x + 2 ^ (w - 1)) % ((2 ^ w : Nat) : Int) - 2 ^ (w - 1))
      % ((2 ^ w : Nat) : Int)
      = ((x + 2 ^ (w - 1)) - 2 ^ (w - 1)) % ((2 ^ w : Nat) : Int) :=
    Int.ModEq.sub_right _ h1
  rw [h2]
  norm_num

theorem wrapW_congr {w : Nat} {x y : Int}
    (h : x % ((2 ^ w : Nat) : Int) = y % ((2 ^ w : Nat) : Int)) :
    wrapW w x = wrapW w y := by
  unfold wrapW
  rw [Int.ModEq.add_right _ h]

/-! Claim theorems. -/

/-- Claim C1 (refuted by the code, code bug): dynamic inference is not
total.  On the ordinary implicit scalar `"-"`, `resolveInterface` calls
`resolve_int`, which strips the sign and then evaluates `val[0]` on the
now-empty string — an index-out-of-range panic that propagates out of
`resolveInterface` instead of any value being returned. -/
theorem c1_dynamic_inference_crashes :
    resolveInterface ⟨"-", "", true⟩ = .error .crash := by decide

/-- Claim C2: every recognized null spelling resolves, under every target
kind, to that kind's zero/absent value and never to an error; the check
precedes all target-kind-specific conversion. -/
theorem c2_null_zero_value (e : Event) (k : Kind)
    (h : e.value ∈ (["", "~", "null", "Null", "NULL"] : List String)) :
    resolve e k = .ok (zeroValue k) := by
  have hn : null_values e.value = true := by
    simp only [List.mem_cons, List.not_mem_nil, or_false] at h
    rcases h with h | h | h | h | h <;> rw [h] <;> decide
  unfold resolve
  rw [hn]
  simp

/-- Witness for C2 at the spelling `"~"` against a Bool target. -/
theorem c2_null_zero_value_witness :
    resolve ⟨"~", "x", true⟩ .kbool = .ok (.vbool false) :=
  c2_null_zero_value ⟨"~", "x", true⟩ .kbool (by decide)

/-- Claim C4, counterexample: the two sample timestamps do NOT denote the
same absolute instant, because the fractional digit string is read as an
integer count of milliseconds: `.1` becomes 1ms while `.10` becomes 10ms,
so the parsed instants differ in their sub-second part. -/
theorem c4_timestamp_counterexample :
    resolve_time "2001-12-15T02:59:43.1Z" = .ok ⟨1008385183, 1000000⟩ ∧
    resolve_time "2001-12-14t21:59:43.10-05:00" = .ok ⟨1008385183, 10000000⟩ ∧
    (⟨1008385183, 1000000⟩ : GoTime) ≠ ⟨1008385183, 10000000⟩ := by
  refine ⟨by decide, by decide, by decide⟩

/-- Claim C4 as amended: `"2001-12-15T02:59:43.1Z"` parses to
2001-12-15 02:59:43 UTC plus 1ms, `"2001-12-14t21:59:43.10-05:00"` to the
same UTC second plus 10ms (equal wall-clock second, different instant),
`"2002-12-14"` to midnight UTC, and `"not-a-date"` fails with the
invalid-timestamp error. -/
theorem c4_timestamp_amended :
    resolve_time "2001-12-15T02:59:43.1Z" = .ok ⟨1008385183, 1000000⟩ ∧
    resolve_time "2001-12-14t21:59:43.10-05:00" = .ok ⟨1008385183, 10000000⟩ ∧
    resolve_time "2002-12-14" = .ok ⟨1039824000, 0⟩ ∧
    resolve_time "not-a-date" =
      .error (.msg "Unexpected timestamp: not-a-date") := by
  refine ⟨by decide, by decide, by decide, by decide⟩

/-- Claim C5: a non-empty scalar with no tag that was not implicit
(i.e. explicitly quoted) always resolves dynamically to its raw text as a
string, bypassing all inference. -/
theorem c5_explicit_quoted_is_string (v : String) (hv : v ≠ "") :
    resolveInterface ⟨v, "", false⟩ = .ok (.vstr v) := by
  have hd : v.data ≠ [] := by
    intro h
    exact hv (by cases v; simp_all)
  unfold resolveInterface
  rw [if_neg hd, if_pos ⟨rfl, rfl⟩]

/-- Witness for C5: the quoted text `"123"` stays the string `"123"`. -/
theorem c5_explicit_quoted_is_string_witness :
    resolveInterface ⟨"123", "", false⟩ = .ok (.vstr "123") :=
  c5_explicit_quoted_is_string "123" (by decide)

/-- Claim C7: float conversion maps `.inf` (any casing, optional sign) to
the correspondingly signed infinity, `.nan` to NaN with the sign ignored,
and the sexagesimal text `"1:30.5"` to `1 * 60 + 30.5 = 90.5`. -/
theorem c7_float_special_forms :
    resolve_float ".inf" 64 = .ok (.inf false) ∧
    resolve_float "+.Inf" 64 = .ok (.inf false) ∧
    resolve_float "-.inf" 64 = .ok (.inf true) ∧
    resolve_float "-.INF" 64 = .ok (.inf true) ∧
    resolve_float ".nan" 64 = .ok .nan ∧
    resolve_float "-.NaN" 64 = .ok .nan ∧
    resolve_float "+.nAn" 64 = .ok .nan ∧
    resolve_float "1:30.5" 64 = .ok (.finite ⟨905, 10⟩) ∧
    DecQ.toRat ⟨905, 10⟩ = 181 / 2 := by
  refine ⟨by decide, by decide, by decide, by decide, by decide, by decide,
    by decide, by decide, ?_⟩
  norm_num [DecQ.toRat]

/-- Claim C10: timestamp conversion performs no calendar range
validation — every text matched by either grammar converts successfully,
and out-of-range components are folded in by date arithmetic: month 14 of
2011 becomes February 2012, and hour 99 rolls over into later days. -/
theorem c10_no_range_validation :
    (∀ s : String, (ymdMatch s.data).isSome ∨ (tsMatch s.data).isSome →
      ∃ t, resolve_time s = .ok t) ∧
    resolve_time "2011-14-01" = .ok ⟨1328054400, 0⟩ ∧
    resolve_time "2011-01-01 99:30:00" = .ok ⟨1294198200, 0⟩ := by
  refine ⟨?_, by decide, by decide⟩
  intro s h
  unfold resolve_time
  cases hy : ymdMatch s.data with
  | some p =>
    obtain ⟨y, m, d⟩ := p
    exact ⟨_, rfl⟩
  | none =>
    rw [hy] at h
    simp only [Option.isSome_none, Bool.false_eq_true, false_or] at h
    obtain ⟨t, ht⟩ := Option.isSome_iff_exists.mp h
    rw [ht]
    exact ⟨_, rfl⟩

/-- Witness for C10's universal part at the date `"2001-01-01"`. -/
theorem c10_no_range_validation_witness :
    ∃ t, resolve_time "2001-01-01" = .ok t :=
  c10_no_range_validation.1 "2001-01-01" (Or.inl (by decide))

/-- Claim C8: boolean conversion lowercases the input and looks it up in
the fixed table: any casing of `y`, `yes`, `true`, `on` yields `true`, any
casing of `n`, `no`, `false`, `off` yields `false`, and every other text
fails with the invalid-boolean error — no partial matches. -/
theorem c8_bool_table (s : String) :
    (goToLower s ∈ (["y", "yes", "true", "on"] : List String) →
      resolve_bool s = .ok true) ∧
    (goToLower s ∈ (["n", "no", "false", "off"] : List String) →
      resolve_bool s = .ok false) ∧
    (goToLower s ∉
        (["y", "yes", "true", "on", "n", "no", "false", "off"] : List String) →
      resolve_bool s = .error (.msg ("Invalid boolean: " ++ s))) := by
  refine ⟨?_, ?_, ?_⟩ <;> intro h
  · simp only [List.mem_cons, List.not_mem_nil, or_false] at h
    unfold resolve_bool
    rcases h with h | h | h | h <;> rw [h] <;> rfl
  · simp only [List.mem_cons, List.not_mem_nil, or_false] at h
    unfold resolve_bool
    rcases h with h | h | h | h <;> rw [h] <;> rfl
  · simp only [List.mem_cons, List.not_mem_nil, or_false, not_or] at h
    obtain ⟨h1, h2, h3, h4, h5, h6, h7, h8⟩ := h
    unfold resolve_bool bool_values
    rw [if_neg (by tauto), if_neg (by tauto)]

/-- Witness for C8: the casings `"TRUE"`, `"Off"` and the non-boolean
`"maybe"`. -/
theorem c8_bool_table_witness :
    resolve_bool "TRUE" = .ok true ∧
    resolve_bool "Off" = .ok false ∧
    resolve_bool "maybe" = .error (.msg "Invalid boolean: maybe") :=
  ⟨(c8_bool_table "TRUE").1 (by decide),
   (c8_bool_table "Off").2.1 (by decide),
   (c8_bool_table "maybe").2.2 (by decide)⟩

/-- Claim C9: signed conversion accepts an optional leading `-` or `+`,
while unsigned conversion accepts `+` but rejects every text whose
(underscore-stripped) form starts with `-`, with the
unsigned-with-negative-sign error. -/
theorem c9_sign_handling :
    (∀ (s : String) (w : Nat), s.data.headI = '-' → s.data ≠ [] →
      resolve_uint s w =
        .error (.msg ("Unsigned int with negative value: " ++
          (stripUnderscores s.data).asString))) ∧
    resolve_int "+7" 64 = .ok 7 ∧
    resolve_int "-7" 64 = .ok (-7) ∧
    resolve_uint "+7" 64 = .ok 7 := by
  refine ⟨?_, by decide, by decide, by decide⟩
  intro s w hh hne
  unfold resolve_uint
  cases hd : s.data with
  | nil => exact absurd hd hne
  | cons c t =>
    rw [hd] at hh
    simp only [List.headI] at hh
    subst hh
    have hs : stripUnderscores ('-' :: t) = '-' :: stripUnderscores t := by
      simp [stripUnderscores]
    simp [hs, List.headI]

/-- Witness for C9's universal part at `"-1"` against a 64-bit target. -/
theorem c9_sign_handling_witness :
    resolve_uint "-1" 64 =
      .error (.msg "Unsigned int with negative value: -1") :=
  c9_sign_handling.1 "-1" 64 (by decide) (by decide)

/-! Digit-string lemmas supporting the integer-conversion claims. -/

theorem isDigit_ne {c d : Char} (h : isDigit c = true)
    (hd : isDigit d = false) : c ≠ d := by
  intro he
  rw [he, hd] at h
  exact Bool.noConfusion h

theorem validDigit_ten {c : Char} (h : isDigit c = true) :
    validDigit 10 c = true := by
  simp only [isDigit, Bool.and_eq_true, decide_eq_true_eq] at h
  simp only [validDigit, digitVal, if_pos h, decide_eq_true_eq]
  omega

theorem no_colon_of_digits {ds : List Char}
    (hall : ∀ c ∈ ds, isDigit c = true) : ':' ∉ ds := by
  intro hm
  exact absurd (hall _ hm) (by decide)

theorem strip_of_digits {ds : List Char}
    (hall : ∀ c ∈ ds, isDigit c = true) : stripUnderscores ds = ds := by
  unfold stripUnderscores
  apply List.filter_eq_self.mpr
  intro c hc
  have h := hall c hc
  simp only [bne_iff_ne, ne_eq]
  intro he
  rw [he] at h
  exact absurd h (by decide)

theorem goParseUint64_digits {g : List Char} (hne : g ≠ [])
    (hall : ∀ c ∈ g, isDigit c = true)
    (hlt : digitsVal 10 g < 2 ^ 64) :
    goParseUint64 g 10 = .ok (digitsVal 10 g) := by
  unfold goParseUint64
  rw [if_neg hne,
    if_pos (List.all_eq_true.mpr fun c hc => validDigit_ten (hall c hc))]
  simp only [if_pos hlt]

theorem goParseUint64_digits_big {g : List Char}
    (hge : 2 ^ 64 ≤ digitsVal 10 g) :
    goParseUint64 g 10 = .error () := by
  unfold goParseUint64
  by_cases hne : g = []
  · rw [if_pos hne]
  · rw [if_neg hne]
    by_cases hv : g.all (validDigit 10)
    · rw [if_pos hv]
      simp only [if_neg (by omega : ¬digitsVal 10 g < 2 ^ 64)]
    · rw [if_neg hv]

theorem headI_digit_cases {ds : List Char} (hne : ds ≠ [])
    (hall : ∀ c ∈ ds, isDigit c = true) : isDigit ds.headI = true := by
  cases ds with
  | nil => exact absurd rfl hne
  | cons a t => exact hall a (List.mem_cons_self a t)

theorem goParseInt64_digits {g : List Char} (hne : g ≠ [])
    (hall : ∀ c ∈ g, isDigit c = true)
    (hlt : digitsVal 10 g < 2 ^ 63) :
    goParseInt64 g 10 = .ok (digitsVal 10 g) := by
  have hd := headI_digit_cases hne hall
  have hm : (g.headI = '-') = False :=
    eq_false (isDigit_ne hd (by decide))
  have hp : (g.headI = '+') = False :=
    eq_false (isDigit_ne hd (by decide))
  unfold goParseInt64
  simp only [hm, hp, false_or, or_false, if_false, ite_false]
  rw [goParseUint64_digits hne hall (by omega)]
  simp
  omega

theorem goParseInt64_digits_big {g : List Char} (hne : g ≠ [])
    (hall : ∀ c ∈ g, isDigit c = true)
    (hge : 2 ^ 63 ≤ digitsVal 10 g) :
    goParseInt64 g 10 = .error () := by
  have hd := headI_digit_cases hne hall
  have hm : (g.headI = '-') = False :=
    eq_false (isDigit_ne hd (by decide))
  have hp : (g.headI = '+') = False :=
    eq_false (isDigit_ne hd (by decide))
  unfold goParseInt64
  simp only [hm, hp, false_or, or_false, if_false, ite_false]
  by_cases h64 : digitsVal 10 g < 2 ^ 64
  · rw [goParseUint64_digits hne hall h64]
    simp
    omega
  · rw [goParseUint64_digits_big (by omega)]

theorem take_two_head {ds : List Char} {a b : Char}
    (h : ds.take 2 = [a, b]) : ds.headI = a := by
  cases ds with
  | nil => simp at h
  | cons x t =>
    rw [List.take_succ_cons] at h
    exact (List.cons.inj h).1 ▸ rfl

/-- Routing lemma: on a pure nonzero-leading digit string the signed
resolver reaches the plain decimal `strconv.ParseInt` path. -/
theorem resolve_int_digits (ds : List Char) (w : Nat) (hne : ds ≠ [])
    (hall : ∀ c ∈ ds, isDigit c = true) (h0 : ds.headI ≠ '0') :
    resolve_int ⟨ds⟩ w = intFinish w 1 ds 10 := by
  have hd := headI_digit_cases hne hall
  have hdata : (⟨ds⟩ : String).data = ds := rfl
  have hm : (ds.headI = '-') = False := eq_false (isDigit_ne hd (by decide))
  have hp : (ds.headI = '+') = False := eq_false (isDigit_ne hd (by decide))
  have hne' : (ds = []) = False := eq_false hne
  have hz : (ds = ['0']) = False := eq_false (fun he => h0 (by rw [he]; rfl))
  have h0' : (ds.headI = '0') = False := eq_false h0
  have htb : (ds.take 2 = ['0', 'b']) = False :=
    eq_false (fun he => h0 (take_two_head he))
  have htx : (ds.take 2 = ['0', 'x']) = False :=
    eq_false (fun he => h0 (take_two_head he))
  have hcol : (':' ∈ ds) = False := eq_false (no_colon_of_digits hall)
  unfold resolve_int
  rw [hdata, strip_of_digits hall]
  simp only [hm, hp, hne', hz, h0', htb, htx, hcol, false_or, or_false,
    if_false, if_true, ite_false, ite_true]

/-- Routing lemma: the unsigned analogue of `resolve_int_digits`. -/
theorem resolve_uint_digits (ds : List Char) (w : Nat) (hne : ds ≠ [])
    (hall : ∀ c ∈ ds, isDigit c = true) (h0 : ds.headI ≠ '0') :
    resolve_uint ⟨ds⟩ w = uintFinish w ds 10 := by
  have hd := headI_digit_cases hne hall
  have hdata : (⟨ds⟩ : String).data = ds := rfl
  have hm : (ds.headI = '-') = False := eq_false (isDigit_ne hd (by decide))
  have hp : (ds.headI = '+') = False := eq_false (isDigit_ne hd (by decide))
  have hne' : (ds = []) = False := eq_false hne
  have hz : (ds = ['0']) = False := eq_false (fun he => h0 (by rw [he]; rfl))
  have h0' : (ds.headI = '0') = False := eq_false h0
  have htb : (ds.take 2 = ['0', 'b']) = False :=
    eq_false (fun he => h0 (take_two_head he))
  have htx : (ds.take 2 = ['0', 'x']) = False :=
    eq_false (fun he => h0 (take_two_head he))
  have hcol : (':' ∈ ds) = False := eq_false (no_colon_of_digits hall)
  unfold resolve_uint
  rw [hdata, strip_of_digits hall]
  simp only [hm, hp, hne', hz, h0', htb, htx, hcol, false_or, or_false,
    if_false, if_true, ite_false, ite_true]

theorem intFinish_digits_overflow {ds : List Char} {w : Nat}
    (hne : ds ≠ []) (hall : ∀ c ∈ ds, isDigit c = true)
    (hge : (2 ^ (w - 1) : Nat) ≤ digitsVal 10 ds) :
    intFinish w 1 ds 10 = .error (.msg ("Integer: " ++ ds.asString)) := by
  unfold intFinish
  by_cases h63 : digitsVal 10 ds < 2 ^ 63
  · rw [goParseInt64_digits hne hall h63]
    have h1 : wrapW 64 ((digitsVal 10 ds : Int) * 1) = (digitsVal 10 ds : Int) := by
      rw [mul_one]
      have hnn := Int.ofNat_nonneg (digitsVal 10 ds)
      have hpos : (0 : Int) ≤ 2 ^ (64 - 1) := by positivity
      have h2 : ((digitsVal 10 ds : Nat) : Int) < ((2 ^ 63 : Nat) : Int) := by
        exact_mod_cast h63
      have h3 : ((2 ^ 63 : Nat) : Int) = (2 : Int) ^ (64 - 1) := by norm_num
      exact wrapW_eq_self (by norm_num) (by omega) (by omega)
    simp only []
    rw [h1]
    have h2 : wrapW w ((digitsVal 10 ds : Nat) : Int) ≠ (digitsVal 10 ds : Int) := by
      intro he
      have hr := (wrapW_range w (digitsVal 10 ds)).2
      rw [he] at hr
      have h4 : ((2 ^ (w - 1) : Nat) : Int) ≤ (digitsVal 10 ds : Int) := by
        exact_mod_cast hge
      have hc : ((2 ^ (w - 1) : Nat) : Int) = (2 : Int) ^ (w - 1) := by push_cast; rfl
      rw [hc] at h4
      omega
    rw [if_pos h2]
  · rw [goParseInt64_digits_big hne hall (by omega)]

theorem uintFinish_digits_overflow {ds : List Char} {w : Nat}
    (hne : ds ≠ []) (hall : ∀ c ∈ ds, isDigit c = true)
    (hge : (2 ^ w : Nat) ≤ digitsVal 10 ds) :
    uintFinish w ds 10 =
      .error (.msg ("Unsigned Integer: " ++ ds.asString)) := by
  unfold uintFinish
  by_cases h64 : digitsVal 10 ds < 2 ^ 64
  · rw [goParseUint64_digits hne hall h64]
    have h2 : digitsVal 10 ds % 2 ^ w ≠ digitsVal 10 ds := by
      have h3 : digitsVal 10 ds % 2 ^ w < 2 ^ w :=
        Nat.mod_lt _ (by positivity)
      omega
    simp only []
    rw [if_pos h2]
  · rw [goParseUint64_digits_big (by omega)]

theorem intFinish_ok_range {w : Nat} {sign : Int} {body : List Char}
    {base : Nat} {x : Int} (h : intFinish w sign body base = .ok x) :
    -(2 ^ (w - 1) : Int) ≤ x ∧ x < 2 ^ (w - 1) := by
  unfold intFinish at h
  cases hp : goParseInt64 body base with
  | error e => rw [hp] at h; exact absurd h (by simp)
  | ok n =>
    rw [hp] at h
    simp only [] at h
    by_cases hg : wrapW w (wrapW 64 (n * sign)) ≠ wrapW 64 (n * sign)
    · rw [if_pos hg] at h; exact absurd h (by simp)
    · rw [if_neg hg] at h
      injection h with h
      exact h ▸ wrapW_range w _

/-- Every value the signed resolver returns lies inside the target's
`w`-bit two's-complement range (even on the sexagesimal path, where the
final `SetInt` truncates). -/
theorem resolve_int_ok_range (s : String) (w : Nat) (x : Int)
    (h : resolve_int s w = .ok x) :
    -(2 ^ (w - 1) : Int) ≤ x ∧ x < 2 ^ (w - 1) := by
  unfold resolve_int at h
  try simp only [] at h
  set v0 := stripUnderscores s.data with hv0
  by_cases c1 : v0 = []
  · rw [if_pos c1] at h; exact absurd h (by simp)
  rw [if_neg c1] at h
  set sgn : Int := if v0.headI = '-' then -1 else 1 with hsgn
  set v : List Char := if v0.headI = '-' ∨ v0.headI = '+' then v0.tail else v0
    with hv
  by_cases c2 : v = ['0']
  · rw [if_pos c2] at h
    injection h with h
    subst h
    exact ⟨neg_nonpos.mpr (by positivity), by positivity⟩
  rw [if_neg c2] at h
  by_cases c3 : v.take 2 = ['0', 'b']
  · rw [if_pos c3] at h; exact intFinish_ok_range h
  rw [if_neg c3] at h
  by_cases c4 : v.take 2 = ['0', 'x']
  · rw [if_pos c4] at h; exact intFinish_ok_range h
  rw [if_neg c4] at h
  by_cases c5 : v = []
  · rw [if_pos c5] at h; exact absurd h (by simp)
  rw [if_neg c5] at h
  by_cases c6 : v.headI = '0'
  · rw [if_pos c6] at h; exact intFinish_ok_range h
  rw [if_neg c6] at h
  by_cases c7 : ':' ∈ v
  · rw [if_pos c7] at h
    cases hl : sexIntLoop w v (splitCh ':' v).reverse 0 1 with
    | error e => rw [hl] at h; exact absurd h (by simp)
    | ok value =>
      rw [hl] at h
      injection h with h
      exact h ▸ wrapW_range w _
  · rw [if_neg c7] at h; exact intFinish_ok_range h

theorem uintFinish_ok_range {w : Nat} {body : List Char} {base : Nat}
    {x : Nat} (h : uintFinish w body base = .ok x) : x < 2 ^ w := by
  unfold uintFinish at h
  cases hp : goParseUint64 body base with
  | error e => rw [hp] at h; exact absurd h (by simp)
  | ok n =>
    rw [hp] at h
    simp only [] at h
    by_cases hg : n % 2 ^ w ≠ n
    · rw [if_pos hg] at h; exact absurd h (by simp)
    · rw [if_neg hg] at h
      injection h with h
      exact h ▸ Nat.mod_lt _ (by positivity)

/-- Every value the unsigned resolver returns is below `2 ^ w` (the
sexagesimal path truncates through `SetUint`). -/
theorem resolve_uint_ok_lt (s : String) (w : Nat) (x : Nat)
    (h : resolve_uint s w = .ok x) : x < 2 ^ w := by
  unfold resolve_uint at h
  try simp only [] at h
  set v0 := stripUnderscores s.data with hv0
  by_cases c1 : v0 = []
  · rw [if_pos c1] at h; exact absurd h (by simp)
  rw [if_neg c1] at h
  by_cases cm : v0.headI = '-'
  · rw [if_pos cm] at h; exact absurd h (by simp)
  rw [if_neg cm] at h
  set v : List Char := if v0.headI = '+' then v0.tail else v0 with hv
  by_cases c2 : v = ['0']
  · rw [if_pos c2] at h
    injection h with h
    subst h
    positivity
  rw [if_neg c2] at h
  by_cases c3 : v.take 2 = ['0', 'b']
  · rw [if_pos c3] at h; exact uintFinish_ok_range h
  rw [if_neg c3] at h
  by_cases c4 : v.take 2 = ['0', 'x']
  · rw [if_pos c4] at h; exact uintFinish_ok_range h
  rw [if_neg c4] at h
  by_cases c5 : v = []
  · rw [if_pos c5] at h; exact absurd h (by simp)
  rw [if_neg c5] at h
  by_cases c6 : v.headI = '0'
  · rw [if_pos c6] at h; exact uintFinish_ok_range h
  rw [if_neg c6] at h
  by_cases c7 : ':' ∈ v
  · rw [if_pos c7] at h
    cases hl : sexUintLoop w v (splitCh ':' v).reverse 0 1 with
    | error e => rw [hl] at h; exact absurd h (by simp)
    | ok value =>
      rw [hl] at h
      injection h with h
      exact h ▸ Nat.mod_lt _ (by positivity)
  · rw [if_neg c7] at h; exact uintFinish_ok_range h


/-! General-base digit lemmas for the overflow claims: they extend the
base-10 lemmas above to the `0b`/`0x`/octal bodies and to a stripped
leading sign. -/

theorem validDigit_ne_sign {base : Nat} {c : Char} (hb : base ≤ 36)
    (h : validDigit base c = true) : c ≠ '-' ∧ c ≠ '+' := by
  simp only [validDigit, decide_eq_true_eq] at h
  constructor
  · intro he
    rw [he] at h
    have hd : digitVal '-' = 99 := by decide
    omega
  · intro he
    rw [he] at h
    have hd : digitVal '+' = 99 := by decide
    omega

theorem strip_of_valid {body : List Char} {base : Nat} (hb : base ≤ 36)
    (hall : body.all (validDigit base) = true) :
    stripUnderscores body = body := by
  unfold stripUnderscores
  apply List.filter_eq_self.mpr
  intro c hc
  have hv := (List.all_eq_true.mp hall) c hc
  simp only [bne_iff_ne, ne_eq]
  intro he
  subst he
  simp only [validDigit, decide_eq_true_eq] at hv
  have hd : digitVal '_' = 99 := by decide
  omega

theorem headI_valid {g : List Char} {base : Nat} (hne : g ≠ [])
    (hall : g.all (validDigit base) = true) :
    validDigit base g.headI = true := by
  cases g with
  | nil => exact absurd rfl hne
  | cons a t => exact (List.all_eq_true.mp hall) a (List.mem_cons_self a t)

theorem goParseUint64_valid {g : List Char} {base : Nat} (hne : g ≠ [])
    (hall : g.all (validDigit base) = true)
    (hlt : digitsVal base g < 2 ^ 64) :
    goParseUint64 g base = .ok (digitsVal base g) := by
  unfold goParseUint64
  rw [if_neg hne, if_pos hall]
  simp only [if_pos hlt]

theorem goParseUint64_big {g : List Char} {base : Nat}
    (hge : 2 ^ 64 ≤ digitsVal base g) :
    goParseUint64 g base = .error () := by
  unfold goParseUint64
  by_cases hne : g = []
  · rw [if_pos hne]
  · rw [if_neg hne]
    by_cases hv : g.all (validDigit base)
    · rw [if_pos hv]
      simp only [if_neg (by omega : ¬digitsVal base g < 2 ^ 64)]
    · rw [if_neg hv]

theorem goParseInt64_valid {g : List Char} {base : Nat} (hb : base ≤ 36)
    (hne : g ≠ []) (hall : g.all (validDigit base) = true)
    (hlt : digitsVal base g < 2 ^ 63) :
    goParseInt64 g base = .ok (digitsVal base g) := by
  have hd := headI_valid hne hall
  obtain ⟨hm0, hp0⟩ := validDigit_ne_sign hb hd
  have hm : (g.headI = '-') = False := eq_false hm0
  have hp : (g.headI = '+') = False := eq_false hp0
  unfold goParseInt64
  simp only [hm, hp, false_or, or_false, if_false, ite_false]
  rw [goParseUint64_valid hne hall (by omega)]
  simp
  omega

theorem goParseInt64_valid_big {g : List Char} {base : Nat} (hb : base ≤ 36)
    (hne : g ≠ []) (hall : g.all (validDigit base) = true)
    (hge : 2 ^ 63 ≤ digitsVal base g) :
    goParseInt64 g base = .error () := by
  have hd := headI_valid hne hall
  obtain ⟨hm0, hp0⟩ := validDigit_ne_sign hb hd
  have hm : (g.headI = '-') = False := eq_false hm0
  have hp : (g.headI = '+') = False := eq_false hp0
  unfold goParseInt64
  simp only [hm, hp, false_or, or_false, if_false, ite_false]
  by_cases h64 : digitsVal base g < 2 ^ 64
  · rw [goParseUint64_valid hne hall h64]
    simp
    omega
  · rw [goParseUint64_big (by omega)]

theorem intFinish_pos_overflow {body : List Char} {base w : Nat}
    (hb : base ≤ 36) (hne : body ≠ [])
    (hall : body.all (validDigit base) = true)
    (hge : (2 ^ (w - 1) : Nat) ≤ digitsVal base body) :
    intFinish w 1 body base = .error (.msg ("Integer: " ++ body.asString)) := by
  unfold intFinish
  by_cases h63 : digitsVal base body < 2 ^ 63
  · rw [goParseInt64_valid hb hne hall h63]
    have h1 : wrapW 64 ((digitsVal base body : Int) * 1)
        = (digitsVal base body : Int) := by
      rw [mul_one]
      have hnn := Int.ofNat_nonneg (digitsVal base body)
      have hpos : (0 : Int) ≤ 2 ^ (64 - 1) := by positivity
      have h2 : ((digitsVal base body : Nat) : Int) < ((2 ^ 63 : Nat) : Int) := by
        exact_mod_cast h63
      have h3 : ((2 ^ 63 : Nat) : Int) = (2 : Int) ^ (64 - 1) := by norm_num
      exact wrapW_eq_self (by norm_num) (by omega) (by omega)
    simp only []
    rw [h1]
    have h2 : wrapW w ((digitsVal base body : Nat) : Int)
        ≠ (digitsVal base body : Int) := by
      intro he
      have hr := (wrapW_range w (digitsVal base body)).2
      rw [he] at hr
      have h4 : ((2 ^ (w - 1) : Nat) : Int) ≤ (digitsVal base body : Int) := by
        exact_mod_cast hge
      have hc : ((2 ^ (w - 1) : Nat) : Int) = (2 : Int) ^ (w - 1) := by
        push_cast
        rfl
      rw [hc] at h4
      omega
    rw [if_pos h2]
  · rw [goParseInt64_valid_big hb hne hall (by omega)]

theorem intFinish_neg_overflow {body : List Char} {base w : Nat}
    (hb : base ≤ 36) (hne : body ≠ [])
    (hall : body.all (validDigit base) = true)
    (hgt : (2 ^ (w - 1) : Nat) < digitsVal base body) :
    intFinish w (-1) body base
      = .error (.msg ("Integer: " ++ body.asString)) := by
  unfold intFinish
  by_cases h63 : digitsVal base body < 2 ^ 63
  · rw [goParseInt64_valid hb hne hall h63]
    have hnn := Int.ofNat_nonneg (digitsVal base body)
    have h2c : ((digitsVal base body : Nat) : Int) < ((2 ^ 63 : Nat) : Int) := by
      exact_mod_cast h63
    have h3 : ((2 ^ 63 : Nat) : Int) = (2 : Int) ^ (64 - 1) := by norm_num
    have hpos : (0 : Int) ≤ 2 ^ (64 - 1) := by positivity
    have h1 : wrapW 64 ((digitsVal base body : Int) * -1)
        = -(digitsVal base body : Int) := by
      have he : (digitsVal base body : Int) * -1
          = -(digitsVal base body : Int) := by ring
      rw [he]
      exact wrapW_eq_self (by norm_num) (by omega) (by omega)
    simp only []
    rw [h1]
    have h2 : wrapW w (-((digitsVal base body : Nat) : Int))
        ≠ -(digitsVal base body : Int) := by
      intro he
      have hr := (wrapW_range w (-(digitsVal base body : Int))).1
      rw [he] at hr
      have h4 : ((2 ^ (w - 1) : Nat) : Int) < (digitsVal base body : Int) := by
        exact_mod_cast hgt
      have hc : ((2 ^ (w - 1) : Nat) : Int) = (2 : Int) ^ (w - 1) := by
        push_cast
        rfl
      rw [hc] at h4
      omega
    rw [if_pos h2]
  · rw [goParseInt64_valid_big hb hne hall (by omega)]

theorem uintFinish_overflow {body : List Char} {base w : Nat}
    (hne : body ≠ []) (hall : body.all (validDigit base) = true)
    (hge : (2 ^ w : Nat) ≤ digitsVal base body) :
    uintFinish w body base
      = .error (.msg ("Unsigned Integer: " ++ body.asString)) := by
  unfold uintFinish
  by_cases h64 : digitsVal base body < 2 ^ 64
  · rw [goParseUint64_valid hne hall h64]
    have h2 : digitsVal base body % 2 ^ w ≠ digitsVal base body := by
      have h3 : digitsVal base body % 2 ^ w < 2 ^ w :=
        Nat.mod_lt _ (by positivity)
      omega
    simp only []
    rw [if_pos h2]
  · rw [goParseUint64_big (by omega)]

theorem take_pre_oct {body : List Char} {base : Nat} {a : Char}
    (hall : body.all (validDigit base) = true)
    (ha : validDigit base a = false) :
    (List.take 2 ('0' :: body) = ['0', a]) = False := by
  apply eq_false
  intro he
  have h1 : body.take 1 = [a] := by
    have h0 : List.take 2 ('0' :: body) = '0' :: body.take 1 := rfl
    rw [h0] at he
    exact (List.cons.inj he).2
  cases body with
  | nil => simp at h1
  | cons x t =>
    have hx : x = a := by
      have h0 : List.take 1 (x :: t) = [x] := rfl
      rw [h0] at h1
      exact (List.cons.inj h1).1
    subst hx
    have hv := (List.all_eq_true.mp hall) x (List.mem_cons_self x t)
    rw [ha] at hv
    exact Bool.noConfusion hv


/-- Routing: an optional single leading sign followed by a nonzero-leading
digit string reaches the plain decimal path with the matching sign. -/
theorem resolve_int_dec_route (sgn ds : List Char) (w : Nat)
    (hsgn : sgn = [] ∨ sgn = ['-'] ∨ sgn = ['+'])
    (hne : ds ≠ []) (hall : ∀ x ∈ ds, isDigit x = true)
    (h0 : ds.headI ≠ '0') :
    resolve_int ⟨sgn ++ ds⟩ w
      = intFinish w (if sgn = ['-'] then -1 else 1) ds 10 := by
  have hz : (ds = ['0']) = False := eq_false (fun he => h0 (by rw [he]; rfl))
  have h0' : (ds.headI = '0') = False := eq_false h0
  have htb : (ds.take 2 = ['0', 'b']) = False :=
    eq_false (fun he => h0 (take_two_head he))
  have htx : (ds.take 2 = ['0', 'x']) = False :=
    eq_false (fun he => h0 (take_two_head he))
  have hnee : (ds = []) = False := eq_false hne
  have hcol : (':' ∈ ds) = False := eq_false (no_colon_of_digits hall)
  have hfd : List.filter (fun c => c != '_') ds = ds := strip_of_digits hall
  rcases hsgn with rfl | rfl | rfl
  · simpa using resolve_int_digits ds w hne hall h0
  · have hdata : (⟨['-'] ++ ds⟩ : String).data = '-' :: ds := rfl
    have hstrip2 : stripUnderscores ('-' :: ds) = '-' :: ds := by
      unfold stripUnderscores
      rw [List.filter_cons, if_pos (by decide), hfd]
    have hc1 : (('-' :: ds : List Char) = []) = False := by simp
    have hcm : (('-' : Char) = '-') = True := by decide
    have hcp : (('-' : Char) = '+') = False := by decide
    have hs : ((['-'] : List Char) = ['-']) = True := by decide
    unfold resolve_int
    rw [hdata, hstrip2]
    simp only [List.headI_cons, List.tail_cons, hc1, hcm, hcp, hs, hz, h0',
      htb, htx, hnee, hcol, true_or, or_true, false_or, or_false, if_false,
      if_true, ite_false, ite_true]
  · have hdata : (⟨['+'] ++ ds⟩ : String).data = '+' :: ds := rfl
    have hstrip2 : stripUnderscores ('+' :: ds) = '+' :: ds := by
      unfold stripUnderscores
      rw [List.filter_cons, if_pos (by decide), hfd]
    have hc1 : (('+' :: ds : List Char) = []) = False := by simp
    have hcm : (('+' : Char) = '-') = False := by decide
    have hcp : (('+' : Char) = '+') = True := by decide
    have hs : ((['+'] : List Char) = ['-']) = False := by decide
    unfold resolve_int
    rw [hdata, hstrip2]
    simp only [List.headI_cons, List.tail_cons, hc1, hcm, hcp, hs, hz, h0',
      htb, htx, hnee, hcol, true_or, or_true, false_or, or_false, if_false,
      if_true, ite_false, ite_true]


/-- Routing: the unsigned analogue of `resolve_int_dec_route` (only `+`
is allowed; a leading `-` takes the sign-error branch instead). -/
theorem resolve_uint_dec_route (sgn ds : List Char) (w : Nat)
    (hsgn : sgn = [] ∨ sgn = ['+'])
    (hne : ds ≠ []) (hall : ∀ x ∈ ds, isDigit x = true)
    (h0 : ds.headI ≠ '0') :
    resolve_uint ⟨sgn ++ ds⟩ w = uintFinish w ds 10 := by
  have hz : (ds = ['0']) = False := eq_false (fun he => h0 (by rw [he]; rfl))
  have h0' : (ds.headI = '0') = False := eq_false h0
  have htb : (ds.take 2 = ['0', 'b']) = False :=
    eq_false (fun he => h0 (take_two_head he))
  have htx : (ds.take 2 = ['0', 'x']) = False :=
    eq_false (fun he => h0 (take_two_head he))
  have hnee : (ds = []) = False := eq_false hne
  have hcol : (':' ∈ ds) = False := eq_false (no_colon_of_digits hall)
  have hfd : List.filter (fun c => c != '_') ds = ds := strip_of_digits hall
  rcases hsgn with rfl | rfl
  · simpa using resolve_uint_digits ds w hne hall h0
  · have hdata : (⟨['+'] ++ ds⟩ : String).data = '+' :: ds := rfl
    have hstrip2 : stripUnderscores ('+' :: ds) = '+' :: ds := by
      unfold stripUnderscores
      rw [List.filter_cons, if_pos (by decide), hfd]
    have hc1 : (('+' :: ds : List Char) = []) = False := by simp
    have hcm : (('+' : Char) = '-') = False := by decide
    have hcp : (('+' : Char) = '+') = True := by decide
    unfold resolve_uint
    rw [hdata, hstrip2]
    simp only [List.headI_cons, List.tail_cons, hc1, hcm, hcp, hz, h0',
      htb, htx, hnee, hcol, false_or, or_false, if_false, if_true,
      ite_false, ite_true]


/-- Routing: an optional single sign, a `0b`/`0x`/leading-`0` prefix, and
a body of digits valid in the corresponding base reach that base's
`strconv.ParseInt` path. -/
theorem resolve_int_pre_route (sgn pre body : List Char) (base w : Nat)
    (hsgn : sgn = [] ∨ sgn = ['-'] ∨ sgn = ['+'])
    (hpre : pre = ['0', 'b'] ∧ base = 2 ∨ pre = ['0', 'x'] ∧ base = 16
      ∨ pre = ['0'] ∧ base = 8)
    (hne : body ≠ []) (hall : body.all (validDigit base) = true) :
    resolve_int ⟨sgn ++ (pre ++ body)⟩ w
      = intFinish w (if sgn = ['-'] then -1 else 1) body base := by
  have hb36 : base ≤ 36 := by
    rcases hpre with ⟨_, rfl⟩ | ⟨_, rfl⟩ | ⟨_, rfl⟩ <;> norm_num
  have hfb : List.filter (fun c => c != '_') body = body :=
    strip_of_valid hb36 hall
  rcases hpre with ⟨rfl, rfl⟩ | ⟨rfl, rfl⟩ | ⟨rfl, rfl⟩ <;>
    rcases hsgn with rfl | rfl | rfl
  · -- sgn = [], pre = ['0', 'b'], base 2
    have hdata : (⟨[] ++ (['0', 'b'] ++ body)⟩ : String).data
        = '0' :: 'b' :: body := rfl
    have hstrip2 : stripUnderscores ('0' :: 'b' :: body) = '0' :: 'b' :: body := by
      unfold stripUnderscores
      rw [List.filter_cons, List.filter_cons, if_pos (by decide), if_pos (by decide), hfb]
    have hc1 : (('0' :: 'b' :: body : List Char) = []) = False := by simp
    have hcm : (('0' : Char) = '-') = False := by decide
    have hcp : (('0' : Char) = '+') = False := by decide
    have hs : (([] : List Char) = ['-']) = False := by decide
    have hz2 : (('0' :: 'b' :: body : List Char) = ['0']) = False := by simp
    have htb2 : (List.take 2 ('0' :: 'b' :: body) = ['0', 'b']) = True := eq_true rfl
    unfold resolve_int
    rw [hdata, hstrip2]
    simp only [List.headI_cons, List.tail_cons, hc1, hcm, hcp, hs, hz2, htb2, true_or, or_true, false_or, or_false, if_false, if_true, ite_false, ite_true]
    try rfl
  · -- sgn = ['-'], pre = ['0', 'b'], base 2
    have hdata : (⟨['-'] ++ (['0', 'b'] ++ body)⟩ : String).data
        = '-' :: '0' :: 'b' :: body := rfl
    have hstrip2 : stripUnderscores ('-' :: '0' :: 'b' :: body) = '-' :: '0' :: 'b' :: body := by
      unfold stripUnderscores
      rw [List.filter_cons, List.filter_cons, List.filter_cons, if_pos (by decide), if_pos (by decide), if_pos (by decide), hfb]
    have hc1 : (('-' :: '0' :: 'b' :: body : List Char) = []) = False := by simp
    have hcm : (('-' : Char) = '-') = True := by decide
    have hcp : (('-' : Char) = '+') = False := by decide
    have hs : ((['-'] : List Char) = ['-']) = True := by decide
    have hz2 : (('0' :: 'b' :: body : List Char) = ['0']) = False := by simp
    have htb2 : (List.take 2 ('0' :: 'b' :: body) = ['0', 'b']) = True := eq_true rfl
    unfold resolve_int
    rw [hdata, hstrip2]
    simp only [List.headI_cons, List.tail_cons, hc1, hcm, hcp, hs, hz2, htb2, true_or, or_true, false_or, or_false, if_false, if_true, ite_false, ite_true]
    try rfl
  · -- sgn = ['+'], pre = ['0', 'b'], base 2
    have hdata : (⟨['+'] ++ (['0', 'b'] ++ body)⟩ : String).data
        = '+' :: '0' :: 'b' :: body := rfl
    have hstrip2 : stripUnderscores ('+' :: '0' :: 'b' :: body) = '+' :: '0' :: 'b' :: body := by
      unfold stripUnderscores
      rw [List.filter_cons, List.filter_cons, List.filter_cons, if_pos (by decide), if_pos (by decide), if_pos (by decide), hfb]
    have hc1 : (('+' :: '0' :: 'b' :: body : List Char) = []) = False := by simp
    have hcm : (('+' : Char) = '-') = False := by decide
    have hcp : (('+' : Char) = '+') = True := by decide
    have hs : ((['+'] : List Char) = ['-']) = False := by decide
    have hz2 : (('0' :: 'b' :: body : List Char) = ['0']) = False := by simp
    have htb2 : (List.take 2 ('0' :: 'b' :: body) = ['0', 'b']) = True := eq_true rfl
    unfold resolve_int
    rw [hdata, hstrip2]
    simp only [List.headI_cons, List.tail_cons, hc1, hcm, hcp, hs, hz2, htb2, true_or, or_true, false_or, or_false, if_false, if_true, ite_false, ite_true]
    try rfl
  · -- sgn = [], pre = ['0', 'x'], base 16
    have hdata : (⟨[] ++ (['0', 'x'] ++ body)⟩ : String).data
        = '0' :: 'x' :: body := rfl
    have hstrip2 : stripUnderscores ('0' :: 'x' :: body) = '0' :: 'x' :: body := by
      unfold stripUnderscores
      rw [List.filter_cons, List.filter_cons, if_pos (by decide), if_pos (by decide), hfb]
    have hc1 : (('0' :: 'x' :: body : List Char) = []) = False := by simp
    have hcm : (('0' : Char) = '-') = False := by decide
    have hcp : (('0' : Char) = '+') = False := by decide
    have hs : (([] : List Char) = ['-']) = False := by decide
    have hz2 : (('0' :: 'x' :: body : List Char) = ['0']) = False := by simp
    have htb2 : (List.take 2 ('0' :: 'x' :: body) = ['0', 'b']) = False :=
      eq_false (fun he =>
        absurd (show (['0', 'x'] : List Char) = ['0', 'b'] from he) (by decide))
    have htx2 : (List.take 2 ('0' :: 'x' :: body) = ['0', 'x']) = True := eq_true rfl
    unfold resolve_int
    rw [hdata, hstrip2]
    simp only [List.headI_cons, List.tail_cons, hc1, hcm, hcp, hs, hz2, htb2, htx2, true_or, or_true, false_or, or_false, if_false, if_true, ite_false, ite_true]
    try rfl
  · -- sgn = ['-'], pre = ['0', 'x'], base 16
    have hdata : (⟨['-'] ++ (['0', 'x'] ++ body)⟩ : String).data
        = '-' :: '0' :: 'x' :: body := rfl
    have hstrip2 : stripUnderscores ('-' :: '0' :: 'x' :: body) = '-' :: '0' :: 'x' :: body := by
      unfold stripUnderscores
      rw [List.filter_cons, List.filter_cons, List.filter_cons, if_pos (by decide), if_pos (by decide), if_pos (by decide), hfb]
    have hc1 : (('-' :: '0' :: 'x' :: body : List Char) = []) = False := by simp
    have hcm : (('-' : Char) = '-') = True := by decide
    have hcp : (('-' : Char) = '+') = False := by decide
    have hs : ((['-'] : List Char) = ['-']) = True := by decide
    have hz2 : (('0' :: 'x' :: body : List Char) = ['0']) = False := by simp
    have htb2 : (List.take 2 ('0' :: 'x' :: body) = ['0', 'b']) = False :=
      eq_false (fun he =>
        absurd (show (['0', 'x'] : List Char) = ['0', 'b'] from he) (by decide))
    have htx2 : (List.take 2 ('0' :: 'x' :: body) = ['0', 'x']) = True := eq_true rfl
    unfold resolve_int
    rw [hdata, hstrip2]
    simp only [List.headI_cons, List.tail_cons, hc1, hcm, hcp, hs, hz2, htb2, htx2, true_or, or_true, false_or, or_false, if_false, if_true, ite_false, ite_true]
    try rfl
  · -- sgn = ['+'], pre = ['0', 'x'], base 16
    have hdata : (⟨['+'] ++ (['0', 'x'] ++ body)⟩ : String).data
        = '+' :: '0' :: 'x' :: body := rfl
    have hstrip2 : stripUnderscores ('+' :: '0' :: 'x' :: body) = '+' :: '0' :: 'x' :: body := by
      unfold stripUnderscores
      rw [List.filter_cons, List.filter_cons, List.filter_cons, if_pos (by decide), if_pos (by decide), if_pos (by decide), hfb]
    have hc1 : (('+' :: '0' :: 'x' :: body : List Char) = []) = False := by simp
    have hcm : (('+' : Char) = '-') = False := by decide
    have hcp : (('+' : Char) = '+') = True := by decide
    have hs : ((['+'] : List Char) = ['-']) = False := by decide
    have hz2 : (('0' :: 'x' :: body : List Char) = ['0']) = False := by simp
    have htb2 : (List.take 2 ('0' :: 'x' :: body) = ['0', 'b']) = False :=
      eq_false (fun he =>
        absurd (show (['0', 'x'] : List Char) = ['0', 'b'] from he) (by decide))
    have htx2 : (List.take 2 ('0' :: 'x' :: body) = ['0', 'x']) = True := eq_true rfl
    unfold resolve_int
    rw [hdata, hstrip2]
    simp only [List.headI_cons, List.tail_cons, hc1, hcm, hcp, hs, hz2, htb2, htx2, true_or, or_true, false_or, or_false, if_false, if_true, ite_false, ite_true]
    try rfl
  · -- sgn = [], pre = ['0'], base 8
    have hdata : (⟨[] ++ (['0'] ++ body)⟩ : String).data
        = '0' :: body := rfl
    have hstrip2 : stripUnderscores ('0' :: body) = '0' :: body := by
      unfold stripUnderscores
      rw [List.filter_cons, if_pos (by decide), hfb]
    have hc1 : (('0' :: body : List Char) = []) = False := by simp
    have hcm : (('0' : Char) = '-') = False := by decide
    have hcp : (('0' : Char) = '+') = False := by decide
    have hs : (([] : List Char) = ['-']) = False := by decide
    have hz2 : (('0' :: body : List Char) = ['0']) = False := by simp [hne]
    have htb2 := take_pre_oct hall (show validDigit 8 'b' = false by decide)
    have htx2 := take_pre_oct hall (show validDigit 8 'x' = false by decide)
    have hv0 : (('0' :: body : List Char) = []) = False := by simp
    have hh0 : (('0' : Char) = '0') = True := by decide
    unfold resolve_int
    rw [hdata, hstrip2]
    simp only [List.headI_cons, List.tail_cons, hc1, hcm, hcp, hs, hz2, htb2, htx2, hv0, hh0, true_or, or_true, false_or, or_false, if_false, if_true, ite_false, ite_true]
    try rfl
  · -- sgn = ['-'], pre = ['0'], base 8
    have hdata : (⟨['-'] ++ (['0'] ++ body)⟩ : String).data
        = '-' :: '0' :: body := rfl
    have hstrip2 : stripUnderscores ('-' :: '0' :: body) = '-' :: '0' :: body := by
      unfold stripUnderscores
      rw [List.filter_cons, List.filter_cons, if_pos (by decide), if_pos (by decide), hfb]
    have hc1 : (('-' :: '0' :: body : List Char) = []) = False := by simp
    have hcm : (('-' : Char) = '-') = True := by decide
    have hcp : (('-' : Char) = '+') = False := by decide
    have hs : ((['-'] : List Char) = ['-']) = True := by decide
    have hz2 : (('0' :: body : List Char) = ['0']) = False := by simp [hne]
    have htb2 := take_pre_oct hall (show validDigit 8 'b' = false by decide)
    have htx2 := take_pre_oct hall (show validDigit 8 'x' = false by decide)
    have hv0 : (('0' :: body : List Char) = []) = False := by simp
    have hh0 : (('0' : Char) = '0') = True := by decide
    unfold resolve_int
    rw [hdata, hstrip2]
    simp only [List.headI_cons, List.tail_cons, hc1, hcm, hcp, hs, hz2, htb2, htx2, hv0, hh0, true_or, or_true, false_or, or_false, if_false, if_true, ite_false, ite_true]
    try rfl
  · -- sgn = ['+'], pre = ['0'], base 8
    have hdata : (⟨['+'] ++ (['0'] ++ body)⟩ : String).data
        = '+' :: '0' :: body := rfl
    have hstrip2 : stripUnderscores ('+' :: '0' :: body) = '+' :: '0' :: body := by
      unfold stripUnderscores
      rw [List.filter_cons, List.filter_cons, if_pos (by decide), if_pos (by decide), hfb]
    have hc1 : (('+' :: '0' :: body : List Char) = []) = False := by simp
    have hcm : (('+' : Char) = '-') = False := by decide
    have hcp : (('+' : Char) = '+') = True := by decide
    have hs : ((['+'] : List Char) = ['-']) = False := by decide
    have hz2 : (('0' :: body : List Char) = ['0']) = False := by simp [hne]
    have htb2 := take_pre_oct hall (show validDigit 8 'b' = false by decide)
    have htx2 := take_pre_oct hall (show validDigit 8 'x' = false by decide)
    have hv0 : (('0' :: body : List Char) = []) = False := by simp
    have hh0 : (('0' : Char) = '0') = True := by decide
    unfold resolve_int
    rw [hdata, hstrip2]
    simp only [List.headI_cons, List.tail_cons, hc1, hcm, hcp, hs, hz2, htb2, htx2, hv0, hh0, true_or, or_true, false_or, or_false, if_false, if_true, ite_false, ite_true]
    try rfl


/-- Routing: the unsigned analogue of `resolve_int_pre_route` (optional
`+` only). -/
theorem resolve_uint_pre_route (sgn pre body : List Char) (base w : Nat)
    (hsgn : sgn = [] ∨ sgn = ['+'])
    (hpre : pre = ['0', 'b'] ∧ base = 2 ∨ pre = ['0', 'x'] ∧ base = 16
      ∨ pre = ['0'] ∧ base = 8)
    (hne : body ≠ []) (hall : body.all (validDigit base) = true) :
    resolve_uint ⟨sgn ++ (pre ++ body)⟩ w = uintFinish w body base := by
  have hb36 : base ≤ 36 := by
    rcases hpre with ⟨_, rfl⟩ | ⟨_, rfl⟩ | ⟨_, rfl⟩ <;> norm_num
  have hfb : List.filter (fun c => c != '_') body = body :=
    strip_of_valid hb36 hall
  rcases hpre with ⟨rfl, rfl⟩ | ⟨rfl, rfl⟩ | ⟨rfl, rfl⟩ <;>
    rcases hsgn with rfl | rfl
  · -- sgn = [], pre = ['0', 'b'], base 2
    have hdata : (⟨[] ++ (['0', 'b'] ++ body)⟩ : String).data
        = '0' :: 'b' :: body := rfl
    have hstrip2 : stripUnderscores ('0' :: 'b' :: body) = '0' :: 'b' :: body := by
      unfold stripUnderscores
      rw [List.filter_cons, List.filter_cons, if_pos (by decide), if_pos (by decide), hfb]
    have hc1 : (('0' :: 'b' :: body : List Char) = []) = False := by simp
    have hcm : (('0' : Char) = '-') = False := by decide
    have hcp : (('0' : Char) = '+') = False := by decide
    have hz2 : (('0' :: 'b' :: body : List Char) = ['0']) = False := by simp
    have htb2 : (List.take 2 ('0' :: 'b' :: body) = ['0', 'b']) = True := eq_true rfl
    unfold resolve_uint
    rw [hdata, hstrip2]
    simp only [List.headI_cons, List.tail_cons, hc1, hcm, hcp, hz2, htb2, true_or, or_true, false_or, or_false, if_false, if_true, ite_false, ite_true]
    try rfl
  · -- sgn = ['+'], pre = ['0', 'b'], base 2
    have hdata : (⟨['+'] ++ (['0', 'b'] ++ body)⟩ : String).data
        = '+' :: '0' :: 'b' :: body := rfl
    have hstrip2 : stripUnderscores ('+' :: '0' :: 'b' :: body) = '+' :: '0' :: 'b' :: body := by
      unfold stripUnderscores
      rw [List.filter_cons, List.filter_cons, List.filter_cons, if_pos (by decide), if_pos (by decide), if_pos (by decide), hfb]
    have hc1 : (('+' :: '0' :: 'b' :: body : List Char) = []) = False := by simp
    have hcm : (('+' : Char) = '-') = False := by decide
    have hcp : (('+' : Char) = '+') = True := by decide
    have hz2 : (('0' :: 'b' :: body : List Char) = ['0']) = False := by simp
    have htb2 : (List.take 2 ('0' :: 'b' :: body) = ['0', 'b']) = True := eq_true rfl
    unfold resolve_uint
    rw [hdata, hstrip2]
    simp only [List.headI_cons, List.tail_cons, hc1, hcm, hcp, hz2, htb2, true_or, or_true, false_or, or_false, if_false, if_true, ite_false, ite_true]
    try rfl
  · -- sgn = [], pre = ['0', 'x'], base 16
    have hdata : (⟨[] ++ (['0', 'x'] ++ body)⟩ : String).data
        = '0' :: 'x' :: body := rfl
    have hstrip2 : stripUnderscores ('0' :: 'x' :: body) = '0' :: 'x' :: body := by
      unfold stripUnderscores
      rw [List.filter_cons, List.filter_cons, if_pos (by decide), if_pos (by decide), hfb]
    have hc1 : (('0' :: 'x' :: body : List Char) = []) = False := by simp
    have hcm : (('0' : Char) = '-') = False := by decide
    have hcp : (('0' : Char) = '+') = False := by decide
    have hz2 : (('0' :: 'x' :: body : List Char) = ['0']) = False := by simp
    have htb2 : (List.take 2 ('0' :: 'x' :: body) = ['0', 'b']) = False :=
      eq_false (fun he =>
        absurd (show (['0', 'x'] : List Char) = ['0', 'b'] from he) (by decide))
    have htx2 : (List.take 2 ('0' :: 'x' :: body) = ['0', 'x']) = True := eq_true rfl
    unfold resolve_uint
    rw [hdata, hstrip2]
    simp only [List.headI_cons, List.tail_cons, hc1, hcm, hcp, hz2, htb2, htx2, true_or, or_true, false_or, or_false, if_false, if_true, ite_false, ite_true]
    try rfl
  · -- sgn = ['+'], pre = ['0', 'x'], base 16
    have hdata : (⟨['+'] ++ (['0', 'x'] ++ body)⟩ : String).data
        = '+' :: '0' :: 'x' :: body := rfl
    have hstrip2 : stripUnderscores ('+' :: '0' :: 'x' :: body) = '+' :: '0' :: 'x' :: body := by
      unfold stripUnderscores
      rw [List.filter_cons, List.filter_cons, List.filter_cons, if_pos (by decide), if_pos (by decide), if_pos (by decide), hfb]
    have hc1 : (('+' :: '0' :: 'x' :: body : List Char) = []) = False := by simp
    have hcm : (('+' : Char) = '-') = False := by decide
    have hcp : (('+' : Char) = '+') = True := by decide
    have hz2 : (('0' :: 'x' :: body : List Char) = ['0']) = False := by simp
    have htb2 : (List.take 2 ('0' :: 'x' :: body) = ['0', 'b']) = False :=
      eq_false (fun he =>
        absurd (show (['0', 'x'] : List Char) = ['0', 'b'] from he) (by decide))
    have htx2 : (List.take 2 ('0' :: 'x' :: body) = ['0', 'x']) = True := eq_true rfl
    unfold resolve_uint
    rw [hdata, hstrip2]
    simp only [List.headI_cons, List.tail_cons, hc1, hcm, hcp, hz2, htb2, htx2, true_or, or_true, false_or, or_false, if_false, if_true, ite_false, ite_true]
    try rfl
  · -- sgn = [], pre = ['0'], base 8
    have hdata : (⟨[] ++ (['0'] ++ body)⟩ : String).data
        = '0' :: body := rfl
    have hstrip2 : stripUnderscores ('0' :: body) = '0' :: body := by
      unfold stripUnderscores
      rw [List.filter_cons, if_pos (by decide), hfb]
    have hc1 : (('0' :: body : List Char) = []) = False := by simp
    have hcm : (('0' : Char) = '-') = False := by decide
    have hcp : (('0' : Char) = '+') = False := by decide
    have hz2 : (('0' :: body : List Char) = ['0']) = False := by simp [hne]
    have htb2 := take_pre_oct hall (show validDigit 8 'b' = false by decide)
    have htx2 := take_pre_oct hall (show validDigit 8 'x' = false by decide)
    have hv0 : (('0' :: body : List Char) = []) = False := by simp
    have hh0 : (('0' : Char) = '0') = True := by decide
    unfold resolve_uint
    rw [hdata, hstrip2]
    simp only [List.headI_cons, List.tail_cons, hc1, hcm, hcp, hz2, htb2, htx2, hv0, hh0, true_or, or_true, false_or, or_false, if_false, if_true, ite_false, ite_true]
    try rfl
  · -- sgn = ['+'], pre = ['0'], base 8
    have hdata : (⟨['+'] ++ (['0'] ++ body)⟩ : String).data
        = '+' :: '0' :: body := rfl
    have hstrip2 : stripUnderscores ('+' :: '0' :: body) = '+' :: '0' :: body := by
      unfold stripUnderscores
      rw [List.filter_cons, List.filter_cons, if_pos (by decide), if_pos (by decide), hfb]
    have hc1 : (('+' :: '0' :: body : List Char) = []) = False := by simp
    have hcm : (('+' : Char) = '-') = False := by decide
    have hcp : (('+' : Char) = '+') = True := by decide
    have hz2 : (('0' :: body : List Char) = ['0']) = False := by simp [hne]
    have htb2 := take_pre_oct hall (show validDigit 8 'b' = false by decide)
    have htx2 := take_pre_oct hall (show validDigit 8 'x' = false by decide)
    have hv0 : (('0' :: body : List Char) = []) = False := by simp
    have hh0 : (('0' : Char) = '0') = True := by decide
    unfold resolve_uint
    rw [hdata, hstrip2]
    simp only [List.headI_cons, List.tail_cons, hc1, hcm, hcp, hz2, htb2, htx2, hv0, hh0, true_or, or_true, false_or, or_false, if_false, if_true, ite_false, ite_true]
    try rfl

/-- Claim C3, counterexample: sexagesimal overflow is NOT detected.  For
the input `"2:10"` against an 8-bit signed target the combined value
`2 * 60 + 10 = 130` exceeds the width's maximum `127`, yet conversion
succeeds with the wrapped value `-126` instead of failing: the loop
checks each scaled group but never the running sum, which `SetInt`
silently truncates. -/
theorem c3_overflow_counterexample :
    resolve_int "2:10" 8 = .ok (-126) ∧
    (2 * 60 + 10 : Int) = 130 ∧ ((2 ^ 7 : Int) ≤ 130) := by
  refine ⟨by decide, by decide, by decide⟩

/-- Claim C3 as amended: integer conversion never returns a value outside
the target's bit width, and for every non-sexagesimal input made of an
optional single leading sign and a body of digits valid in the selected
base (plain decimal, or `0b`/`0x`/leading-`0` prefixed), a mathematical
value outside the target's range always fails with an error —
`"99999999999999999999"` against 64 bits included, for the signed and the
unsigned resolver alike.  Two carve-outs the code forces: sexagesimal
combined values can wrap (the counterexample), and degenerate
double-signed spellings, whose second sign reaches `strconv.ParseInt`,
can wrap likewise (`"--9223372036854775808"`, mathematically `+2^63`,
comes back as `-2^63` with no error). -/
theorem c3_overflow_amended :
    resolve_int "99999999999999999999" 64 =
      .error (.msg "Integer: 99999999999999999999") ∧
    resolve_uint "99999999999999999999" 64 =
      .error (.msg "Unsigned Integer: 99999999999999999999") ∧
    (∀ (sgn ds : List Char) (w : Nat),
      sgn = [] ∨ sgn = ['-'] ∨ sgn = ['+'] →
      ds ≠ [] → (∀ x ∈ ds, isDigit x = true) → ds.headI ≠ '0' →
      ((if sgn = ['-'] then (-1 : Int) else 1) * (digitsVal 10 ds : Int)
          < -(2 ^ (w - 1)) ∨
        (2 ^ (w - 1) : Int) ≤
          (if sgn = ['-'] then (-1 : Int) else 1) * (digitsVal 10 ds : Int)) →
      resolve_int ⟨sgn ++ ds⟩ w =
        .error (.msg ("Integer: " ++ ds.asString))) ∧
    (∀ (sgn pre body : List Char) (base w : Nat),
      sgn = [] ∨ sgn = ['-'] ∨ sgn = ['+'] →
      pre = ['0', 'b'] ∧ base = 2 ∨ pre = ['0', 'x'] ∧ base = 16 ∨
        pre = ['0'] ∧ base = 8 →
      body ≠ [] → body.all (validDigit base) = true →
      ((if sgn = ['-'] then (-1 : Int) else 1) * (digitsVal base body : Int)
          < -(2 ^ (w - 1)) ∨
        (2 ^ (w - 1) : Int) ≤
          (if sgn = ['-'] then (-1 : Int) else 1) * (digitsVal base body : Int)) →
      resolve_int ⟨sgn ++ (pre ++ body)⟩ w =
        .error (.msg ("Integer: " ++ body.asString))) ∧
    (∀ (sgn ds : List Char) (w : Nat), sgn = [] ∨ sgn = ['+'] →
      ds ≠ [] → (∀ x ∈ ds, isDigit x = true) → ds.headI ≠ '0' →
      (2 ^ w : Nat) ≤ digitsVal 10 ds →
      resolve_uint ⟨sgn ++ ds⟩ w =
        .error (.msg ("Unsigned Integer: " ++ ds.asString))) ∧
    (∀ (sgn pre body : List Char) (base w : Nat), sgn = [] ∨ sgn = ['+'] →
      pre = ['0', 'b'] ∧ base = 2 ∨ pre = ['0', 'x'] ∧ base = 16 ∨
        pre = ['0'] ∧ base = 8 →
      body ≠ [] → body.all (validDigit base) = true →
      (2 ^ w : Nat) ≤ digitsVal base body →
      resolve_uint ⟨sgn ++ (pre ++ body)⟩ w =
        .error (.msg ("Unsigned Integer: " ++ body.asString))) ∧
    (∀ (s : String) (w : Nat) (x : Int), resolve_int s w = .ok x →
      -(2 ^ (w - 1) : Int) ≤ x ∧ x < 2 ^ (w - 1)) ∧
    (∀ (s : String) (w : Nat) (x : Nat), resolve_uint s w = .ok x →
      x < 2 ^ w) ∧
    resolve_int "--9223372036854775808" 64 = .ok (-9223372036854775808) := by
  refine ⟨by decide, by decide, ?_, ?_, ?_, ?_, resolve_int_ok_range,
    resolve_uint_ok_lt, by decide⟩
  · intro sgn ds w hsgn hne hall h0 hover
    have hv10 : ds.all (validDigit 10) = true :=
      List.all_eq_true.mpr fun c hc => validDigit_ten (hall c hc)
    rw [resolve_int_dec_route sgn ds w hsgn hne hall h0]
    have hdnn : (0 : Int) ≤ (digitsVal 10 ds : Int) := Int.ofNat_nonneg _
    have hc : ((2 ^ (w - 1) : Nat) : Int) = (2 : Int) ^ (w - 1) := by
      push_cast
      rfl
    have hPpos : (0 : Int) < (2 : Int) ^ (w - 1) := by positivity
    rcases hsgn with rfl | rfl | rfl
    · simp only [show ((([] : List Char)) = ['-']) = False from by decide,
        ite_false, one_mul] at hover ⊢
      refine intFinish_pos_overflow (by norm_num) hne hv10 ?_
      rcases hover with h | h <;> omega
    · simp only [show ((['-'] : List Char) = ['-']) = True from by decide,
        ite_true, neg_one_mul] at hover ⊢
      refine intFinish_neg_overflow (by norm_num) hne hv10 ?_
      rcases hover with h | h <;> omega
    · simp only [show ((['+'] : List Char) = ['-']) = False from by decide,
        ite_false, one_mul] at hover ⊢
      refine intFinish_pos_overflow (by norm_num) hne hv10 ?_
      rcases hover with h | h <;> omega
  · intro sgn pre body base w hsgn hpre hne hall hover
    have hb36 : base ≤ 36 := by
      rcases hpre with ⟨_, rfl⟩ | ⟨_, rfl⟩ | ⟨_, rfl⟩ <;> norm_num
    rw [resolve_int_pre_route sgn pre body base w hsgn hpre hne hall]
    have hdnn : (0 : Int) ≤ (digitsVal base body : Int) := Int.ofNat_nonneg _
    have hc : ((2 ^ (w - 1) : Nat) : Int) = (2 : Int) ^ (w - 1) := by
      push_cast
      rfl
    have hPpos : (0 : Int) < (2 : Int) ^ (w - 1) := by positivity
    rcases hsgn with rfl | rfl | rfl
    · simp only [show ((([] : List Char)) = ['-']) = False from by decide,
        ite_false, one_mul] at hover ⊢
      refine intFinish_pos_overflow hb36 hne hall ?_
      rcases hover with h | h <;> omega
    · simp only [show ((['-'] : List Char) = ['-']) = True from by decide,
        ite_true, neg_one_mul] at hover ⊢
      refine intFinish_neg_overflow hb36 hne hall ?_
      rcases hover with h | h <;> omega
    · simp only [show ((['+'] : List Char) = ['-']) = False from by decide,
        ite_false, one_mul] at hover ⊢
      refine intFinish_pos_overflow hb36 hne hall ?_
      rcases hover with h | h <;> omega
  · intro sgn ds w hsgn hne hall h0 hge
    rw [resolve_uint_dec_route sgn ds w hsgn hne hall h0]
    exact uintFinish_digits_overflow hne hall hge
  · intro sgn pre body base w hsgn hpre hne hall hge
    rw [resolve_uint_pre_route sgn pre body base w hsgn hpre hne hall]
    exact uintFinish_overflow hne hall hge

/-- Witness for C3's amended universal parts: the signed decimal
`"-300"`, the hex `"0xFF"`, the plus-signed decimal `"+300"` and the
binary `"0b100000000"` all overflow an 8-bit target with an error, and
in-range results satisfy the width bounds. -/
theorem c3_overflow_amended_witness :
    resolve_int "-300" 8 = .error (.msg "Integer: 300") ∧
    resolve_int "0xFF" 8 = .error (.msg "Integer: FF") ∧
    resolve_uint "+300" 8 = .error (.msg "Unsigned Integer: 300") ∧
    resolve_uint "0b100000000" 8 =
      .error (.msg "Unsigned Integer: 100000000") ∧
    (-(2 ^ 7 : Int) ≤ 5 ∧ (5 : Int) < 2 ^ 7) ∧ (7 : Nat) < 2 ^ 8 :=
  ⟨c3_overflow_amended.2.2.1 ['-'] ['3', '0', '0'] 8 (by decide) (by decide)
      (by decide) (by decide) (by decide),
   c3_overflow_amended.2.2.2.1 [] ['0', 'x'] ['F', 'F'] 16 8 (by decide)
      (by decide) (by decide) (by decide) (by decide),
   c3_overflow_amended.2.2.2.2.1 ['+'] ['3', '0', '0'] 8 (by decide)
      (by decide) (by decide) (by decide) (by decide),
   c3_overflow_amended.2.2.2.2.2.1 [] ['0', 'b']
      ['1', '0', '0', '0', '0', '0', '0', '0', '0'] 2 8 (by decide)
      (by decide) (by decide) (by decide) (by decide),
   c3_overflow_amended.2.2.2.2.2.2.1 "5" 8 5 (by decide),
   c3_overflow_amended.2.2.2.2.2.2.2.1 "7" 8 7 (by decide)⟩

/-! Lemmas relating the sexagesimal loop to the positional sum. -/

theorem posValN_append (xs : List Nat) (y : Nat) :
    ∀ j, posValN (xs ++ [y]) j = posValN xs j + y * 60 ^ (j + xs.length) := by
  induction xs with
  | nil => intro j; simp [posValN]
  | cons x r ih =>
    intro j
    have hc : ((x :: r) ++ [y]) = x :: (r ++ [y]) := rfl
    rw [hc]
    simp only [posValN, List.length_cons]
    rw [ih (j + 1)]
    have he : j + 1 + r.length = j + (r.length + 1) := by omega
    rw [he]
    ring

theorem sexCombine_foldl (vals : List Nat) :
    ∀ a, vals.foldl (fun a n => a * 60 + n) a
      = a * 60 ^ vals.length + posValN vals.reverse 0 := by
  induction vals with
  | nil => intro a; simp [posValN]
  | cons v r ih =>
    intro a
    simp only [List.foldl_cons, ih (a * 60 + v), List.reverse_cons,
      List.length_cons]
    rw [posValN_append, List.length_reverse]
    ring

theorem sexCombine_eq_posValN (vals : List Nat) :
    sexCombine vals = posValN vals.reverse 0 := by
  unfold sexCombine
  rw [sexCombine_foldl]
  simp

/-- Invariant of `resolve_int`'s sexagesimal loop: while every processed
value stays inside the target width (and hence inside `int64`), the loop
accumulates exactly the positional sum of the remaining groups. -/
theorem sexIntLoop_ok (w : Nat) (origin : List Char) :
    ∀ (rgs : List (List Char)) (j : Nat) (acc : Int),
      (∀ g ∈ rgs, g ≠ [] ∧ ∀ c ∈ g, isDigit c = true) →
      0 ≤ acc → 1 ≤ w → w ≤ 64 →
      acc + (posValN (rgs.map (digitsVal 10)) j : Int) < 2 ^ (w - 1) →
      sexIntLoop w origin rgs acc (wrapW 64 (60 ^ j)) =
        .ok (acc + (posValN (rgs.map (digitsVal 10)) j : Int)) := by
  intro rgs
  induction rgs with
  | nil =>
    intro j acc _ _ _ _ _
    simp [sexIntLoop, posValN]
  | cons g rest ih =>
    intro j acc hall hacc hw1 hw2 hbound
    obtain ⟨hgne, hgd⟩ := hall g (List.mem_cons_self g rest)
    have hpv : posValN ((g :: rest).map (digitsVal 10)) j
        = digitsVal 10 g * 60 ^ j + posValN (rest.map (digitsVal 10)) (j + 1) :=
      rfl
    set dv := digitsVal 10 g with hdv
    set R : Nat := posValN (rest.map (digitsVal 10)) (j + 1) with hR
    have hrest_nn : (0 : Int) ≤ (R : Int) := Int.ofNat_nonneg _
    have hterm_nn : (0 : Int) ≤ ((dv * 60 ^ j : Nat) : Int) := Int.ofNat_nonneg _
    have hcast : ((dv * 60 ^ j : Nat) : Int) = (dv : Int) * 60 ^ j := by
      push_cast
      ring
    have hb : acc + ((dv * 60 ^ j : Nat) : Int) + (R : Int) < 2 ^ (w - 1) := by
      rw [hpv] at hbound
      push_cast at hbound ⊢
      linarith
    have hP63 : (2 : Int) ^ (w - 1) ≤ 2 ^ 63 :=
      pow_le_pow_right₀ (by norm_num) (by omega)
    have hA63 : ((dv * 60 ^ j : Nat) : Int) < 2 ^ 63 := by linarith
    have hdvle : dv ≤ dv * 60 ^ j :=
      Nat.le_mul_of_pos_right _ (pow_pos (by norm_num) j)
    have hdv63 : dv < 2 ^ 63 := by
      have h1 : ((dv : Nat) : Int) ≤ ((dv * 60 ^ j : Nat) : Int) := by
        exact_mod_cast hdvle
      have h2 : ((2 ^ 63 : Nat) : Int) = (2 : Int) ^ 63 := by norm_num
      omega
    simp only [sexIntLoop]
    rw [goParseInt64_digits hgne hgd hdv63]
    simp only []
    have hbes_congr : wrapW 64 ((dv : Int) * wrapW 64 (60 ^ j))
        = wrapW 64 ((dv : Int) * 60 ^ j) := by
      apply wrapW_congr
      rw [Int.mul_emod, wrapW_emod, ← Int.mul_emod]
    have hn : wrapW 64 ((dv : Int) * wrapW 64 (60 ^ j)) = (dv : Int) * 60 ^ j := by
      rw [hbes_congr, ← hcast]
      refine wrapW_eq_self (by norm_num) (by omega) ?_
      have h2 : ((2 : Int) ^ (64 - 1)) = 2 ^ 63 := by norm_num
      omega
    rw [hn]
    have hg2 : wrapW w ((dv : Int) * 60 ^ j) = (dv : Int) * 60 ^ j := by
      rw [← hcast]
      refine wrapW_eq_self hw1 (by omega) (by omega)
    rw [if_neg (by rw [hg2]; exact fun hne => hne rfl)]
    have hacc' : wrapW 64 (acc + (dv : Int) * 60 ^ j)
        = acc + (dv : Int) * 60 ^ j := by
      rw [← hcast]
      refine wrapW_eq_self (by norm_num) (by omega) ?_
      have h2 : ((2 : Int) ^ (64 - 1)) = 2 ^ 63 := by norm_num
      omega
    have hbes' : wrapW 64 (wrapW 64 ((60 : Int) ^ j) * 60)
        = wrapW 64 (60 ^ (j + 1)) := by
      apply wrapW_congr
      rw [Int.mul_emod, wrapW_emod, ← Int.mul_emod, pow_succ (60 : Int) j]
    rw [hacc', hbes']
    rw [ih (j + 1) (acc + (dv : Int) * 60 ^ j)
      (fun g' hg' => hall g' (List.mem_cons_of_mem _ hg'))
      (by rw [← hcast]; omega) hw1 hw2 (by rw [← hR, ← hcast]; omega)]
    congr 1
    rw [hpv]
    push_cast
    ring

/-- Claim C6: base selection by prefix after underscore/sign stripping
(`0b` binary, `0x` hex, remaining leading `0` octal, else decimal), with
colon-bearing unprefixed text treated as sexagesimal: each group is a
base-10 number and the result is `Σ group[i] * 60 ^ (n - 1 - i)`
(`sexCombine` in Horner form), whenever that combined value fits the
target width. -/
theorem c6_base_selection_and_sexagesimal :
    resolve_int "0b101" 64 = .ok 5 ∧
    resolve_int "017" 64 = .ok 15 ∧
    resolve_int "0x1F" 64 = .ok 31 ∧
    resolve_int "1:2" 64 = .ok 62 ∧
    resolve_int "-10" 64 = .ok (-10) ∧
    (∀ (s : String) (w : Nat), 1 ≤ w → w ≤ 64 →
      ':' ∈ s.data → '_' ∉ s.data →
      isDigit s.data.headI = true → s.data.headI ≠ '0' →
      (∀ g ∈ splitCh ':' s.data, g ≠ [] ∧ ∀ c ∈ g, isDigit c = true) →
      ((sexCombine ((splitCh ':' s.data).map (digitsVal 10)) : Nat) : Int)
          < 2 ^ (w - 1) →
      resolve_int s w =
        .ok ((sexCombine ((splitCh ':' s.data).map (digitsVal 10)) : Nat) : Int)) := by
  refine ⟨by decide, by decide, by decide, by decide, by decide, ?_⟩
  intro s w hw1 hw2 hcol hund hdig h0 hgroups hbound
  have hne : s.data ≠ [] := fun he => by
    rw [he] at hcol
    exact absurd hcol (by simp)
  have hstrip : stripUnderscores s.data = s.data := by
    unfold stripUnderscores
    apply List.filter_eq_self.mpr
    intro c hc
    simp only [bne_iff_ne, ne_eq]
    intro he
    rw [he] at hc
    exact hund hc
  have hm : (s.data.headI = '-') = False := eq_false (isDigit_ne hdig (by decide))
  have hp : (s.data.headI = '+') = False := eq_false (isDigit_ne hdig (by decide))
  have hz : (s.data = ['0']) = False := eq_false (fun he => by
    rw [he] at hcol
    exact absurd hcol (by decide))
  have h0' : (s.data.headI = '0') = False := eq_false h0
  have htb : (s.data.take 2 = ['0', 'b']) = False :=
    eq_false (fun he => h0 (take_two_head he))
  have htx : (s.data.take 2 = ['0', 'x']) = False :=
    eq_false (fun he => h0 (take_two_head he))
  have hne' : (s.data = []) = False := eq_false hne
  have hcol' : (':' ∈ s.data) = True := eq_true hcol
  unfold resolve_int
  rw [hstrip]
  simp only [hm, hp, hz, h0', htb, htx, hne', hcol', false_or, or_false,
    if_false, if_true, ite_false, ite_true]
  set T : Nat := sexCombine ((splitCh ':' s.data).map (digitsVal 10)) with hT
  have hTpos : posValN (((splitCh ':' s.data).reverse).map (digitsVal 10)) 0 = T := by
    rw [List.map_reverse, hT, sexCombine_eq_posValN]
  have hl := sexIntLoop_ok w s.data ((splitCh ':' s.data).reverse) 0 0
    (fun g hg => hgroups g (List.mem_reverse.mp hg)) le_rfl hw1 hw2
    (by rw [hTpos]; simpa using hbound)
  rw [hTpos] at hl
  rw [show wrapW 64 ((60 : Int) ^ 0) = 1 from by decide] at hl
  rw [zero_add] at hl
  rw [hl]
  have hTnn : (0 : Int) ≤ (T : Int) := Int.ofNat_nonneg _
  have hP63 : (2 : Int) ^ (w - 1) ≤ 2 ^ 63 :=
    pow_le_pow_right₀ (by norm_num) (by omega)
  have h1 : wrapW 64 ((T : Int) * 1) = (T : Int) := by
    rw [mul_one]
    refine wrapW_eq_self (by norm_num) (by omega) ?_
    have h2 : ((2 : Int) ^ (64 - 1)) = 2 ^ 63 := by norm_num
    omega
  have h2 : wrapW w ((T : Int)) = (T : Int) :=
    wrapW_eq_self hw1 (by omega) hbound
  simp only []
  rw [h1, h2]

/-- Witness for C6's sexagesimal part at `"1:2:3"` against a 64-bit
target: `1 * 3600 + 2 * 60 + 3 = 3723`. -/
theorem c6_base_selection_and_sexagesimal_witness :
    resolve_int "1:2:3" 64 = .ok 3723 := by
  have h := c6_base_selection_and_sexagesimal.2.2.2.2.2 "1:2:3" 64
    (by decide) (by decide) (by decide) (by decide) (by decide) (by decide)
    (by decide) (by decide)
  simpa using h

end Candied
